import Mathlib

/-!
# Verification of the adaptive time-sliced execution engine

A shallow embedding, in Lean 4, of the engine's core components:

* `src/core/hyperliquid/orderbook.ts` — order-book depth analysis and slippage;
* `src/core/trade/vwapEnhancedTWAP.ts` — VWAP tracking and dynamic sizing;
* `src/core/hyperliquid/formatting.ts` — venue price formatting/validation;
* `src/core/trade/riskManager.ts` — the risk monitor's halt latch;
* `src/core/trade/twapExecutor.ts` — the live execution loop.

Modelling conventions, used consistently below:

* JavaScript numbers are modelled as exact rationals (`ℚ`).  Every finite
  binary float is an exact rational whose denominator is a power of two, so
  this is an idealisation only of the float *rounding* of arithmetic, which
  the verified properties do not depend on.  Where the source can genuinely
  produce the non-finite values `NaN` / `±Infinity` (division by zero), we
  model the result with the four-valued type `JsNum` below, reproducing
  JavaScript's comparison semantics for those values.
* `parseFloat` of a level's price/size string is modelled by making the
  fields rationals directly.
* Wall-clock timestamps (`Date.now()`) are threaded as explicit parameters
  or dropped when no verified property mentions them.
* Human-readable diagnostic strings (`reasoning`, alert `message`, error
  messages, `console.log`) and callback side effects are dropped: they
  carry no data that any verified property mentions.
* External I/O (order-book fetch, order placement) is modelled by explicit
  environment parameters; a promise rejection / thrown exception is `none`.
-/

/-- A JavaScript number that may be non-finite: `num q` is the finite value
`q`, and `inf`, `ninf`, `nan` are `Infinity`, `-Infinity`, `NaN`. -/
inductive JsNum where
  | num (q : ℚ)
  | inf
  | ninf
  | nan
deriving DecidableEq

/-- JavaScript division `a / b` for finite `a b`: division by (positive)
zero yields `±Infinity`, and `0 / 0` yields `NaN`. -/
def jsDivJ (a b : ℚ) : JsNum :=
  if b = 0 then (if a = 0 then .nan else if 0 < a then .inf else .ninf)
  else .num (a / b)

/-- The JavaScript truth value of `x > c` for a possibly non-finite `x` and
finite `c`: any comparison with `NaN` is false. -/
def JsNum.gtQ : JsNum → ℚ → Bool
  | .num a, c => decide (c < a)
  | .inf, _ => true
  | .ninf, _ => false
  | .nan, _ => false

/-- The JavaScript truth value of `x < c` for a possibly non-finite `x` and
finite `c`: any comparison with `NaN` is false. -/
def JsNum.ltQ : JsNum → ℚ → Bool
  | .num a, c => decide (a < c)
  | .inf, _ => false
  | .ninf, _ => true
  | .nan, _ => false

/-- JavaScript `Math.round`: half-way cases round toward `+∞`. -/
def jsRound (x : ℚ) : ℤ := ⌊x + 1 / 2⌋

/-! ## `src/core/hyperliquid/orderbook.ts` -/

/-- One order-book level (`OrderBookLevel`): `px`/`sz` strings modelled as
the rationals `parseFloat` yields on them. -/
structure Level where
  px : ℚ
  sz : ℚ
deriving DecidableEq

/-- An L2 order-book snapshot (`OrderBook`): `levels[0]` are the bids and
`levels[1]` the asks. -/
structure OrderBook where
  coin : String
  bids : List Level
  asks : List Level
  time : ℤ
deriving DecidableEq

/-- The result record of `calculateSlippage` (`SlippageInfo`). -/
structure SlippageInfo where
  estimatedPrice : JsNum
  slippagePercent : JsNum
  depth : ℕ
  wouldExecute : Bool
deriving DecidableEq

/-- The `[...levels].sort((a, b) => isBuy ? pA - pB : pB - pA)` step: a
stable sort by price, ascending for asks (buys), descending for bids
(sells).  JavaScript's `Array.prototype.sort` is stable, as is
`List.insertionSort`. -/
def sortLevels (isBuy : Bool) (levels : List Level) : List Level :=
  if isBuy then List.insertionSort (fun a b => a.px ≤ b.px) levels
  else List.insertionSort (fun a b => b.px ≤ a.px) levels

/-- The level-walking loop of `calculateSlippage`, returning the final
`(remainingSize, totalCost, depth)`.  The loop breaks before consuming a
level once `remainingSize <= 0`; the second in-loop break after the update
is subsumed by the next iteration's entry check and leaves the
accumulators unchanged. -/
def walkLevels : List Level → ℚ → ℚ → ℕ → ℚ × ℚ × ℕ
  | [], rem, cost, depth => (rem, cost, depth)
  | l :: ls, rem, cost, depth =>
    if rem ≤ 0 then (rem, cost, depth)
    else
      let sizeToTake := min rem l.sz
      walkLevels ls (rem - sizeToTake) (cost + sizeToTake * l.px) (depth + 1)

/-- The `slippagePercent` expression
`Math.abs((estimatedPrice - bestPrice) / bestPrice * 100)` of
`calculateSlippage`, lifted to a possibly-`NaN` estimated price. -/
def slipPercentOf (estimatedPrice : JsNum) (bestPrice : ℚ) : JsNum :=
  match estimatedPrice with
  | .num p =>
    if bestPrice = 0 then (if p = 0 then .nan else .inf)
    else .num |(p - bestPrice) / bestPrice * 100|
  | .inf => .inf
  | .ninf => .inf
  | .nan => .nan

/-- `calculateSlippage(orderBook, size, isBuy)`: walk the opposing side of
the book in price priority, consuming levels until `size` is filled or the
book is exhausted. -/
def calculateSlippage (orderBook : OrderBook) (size : ℚ) (isBuy : Bool) :
    SlippageInfo :=
  let levels := if isBuy then orderBook.asks else orderBook.bids
  if levels = [] then
    { estimatedPrice := .num 0, slippagePercent := .num 100, depth := 0,
      wouldExecute := false }
  else
    let sortedLevels := sortLevels isBuy levels
    let w := walkLevels sortedLevels size 0 0
    let wouldExecute := decide (w.1 ≤ 0)
    -- `totalCost / size`: `0 / 0` is `NaN` when `size = 0`
    let estimatedPrice : JsNum :=
      if wouldExecute then (if size = 0 then .nan else .num (w.2.1 / size))
      else .num 0
    let bestPrice := ((sortedLevels.head?).getD ⟨0, 0⟩).px
    let slippagePercent :=
      if wouldExecute then slipPercentOf estimatedPrice bestPrice
      else .num 100
    { estimatedPrice := estimatedPrice, slippagePercent := slippagePercent,
      depth := w.2.2, wouldExecute := wouldExecute }

/-- The result record of `analyzeMarketDepth` (`MarketDepthAnalysis`).
`spreadPercent` may be non-finite when `midPrice = 0`. -/
structure MarketDepthAnalysis where
  totalBidVolume : ℚ
  totalAskVolume : ℚ
  bidDepth : ℕ
  askDepth : ℕ
  spread : ℚ
  spreadPercent : JsNum
  midPrice : ℚ
deriving DecidableEq

/-- `analyzeMarketDepth(orderBook)`: totals, best prices, spread and mid
price; the all-zero record when either side is empty. -/
def analyzeMarketDepth (orderBook : OrderBook) : MarketDepthAnalysis :=
  let bids := orderBook.bids
  let asks := orderBook.asks
  if bids = [] ∨ asks = [] then
    { totalBidVolume := 0, totalAskVolume := 0, bidDepth := 0, askDepth := 0,
      spread := 0, spreadPercent := .num 0, midPrice := 0 }
  else
    let totalBidVolume := (bids.map (·.sz)).sum
    let totalAskVolume := (asks.map (·.sz)).sum
    -- Math.max / Math.min over the (nonempty) price lists
    let bestBid := ((bids.map (·.px)).max?).getD 0
    let bestAsk := ((asks.map (·.px)).min?).getD 0
    let spread := bestAsk - bestBid
    let midPrice := (bestBid + bestAsk) / 2
    { totalBidVolume := totalBidVolume, totalAskVolume := totalAskVolume,
      bidDepth := bids.length, askDepth := asks.length, spread := spread,
      spreadPercent := jsDivJ (spread * 100) midPrice, midPrice := midPrice }

/-- The level walk of `findMaxVolumeForSlippage`: accumulate whole levels
while the running average fill price stays within the slippage tolerance
of the best price. -/
def maxVolWalk (bestPrice maxSlippagePercent : ℚ) :
    List Level → ℚ → ℚ → ℚ
  | [], cumulativeVolume, _ => cumulativeVolume
  | l :: ls, cumulativeVolume, totalCost =>
    let newVolume := cumulativeVolume + l.sz
    let newCost := totalCost + l.sz * l.px
    let avgPrice := jsDivJ newCost newVolume
    let slippage := slipPercentOf avgPrice bestPrice
    if slippage.gtQ maxSlippagePercent then cumulativeVolume
    else maxVolWalk bestPrice maxSlippagePercent ls newVolume newCost

/-- `findMaxVolumeForSlippage(orderBook, isBuy, maxSlippagePercent)`:
largest prefix volume within tolerance, with a 10% safety buffer. -/
def findMaxVolumeForSlippage (orderBook : OrderBook) (isBuy : Bool)
    (maxSlippagePercent : ℚ) : ℚ :=
  let levels := if isBuy then orderBook.asks else orderBook.bids
  if levels = [] then 0
  else
    let sortedLevels := sortLevels isBuy levels
    let bestPrice := ((sortedLevels.head?).getD ⟨0, 0⟩).px
    maxVolWalk bestPrice maxSlippagePercent sortedLevels 0 0 * (9 / 10)

/-- The result of `checkVolumeConstraints`; the diagnostic `reason` string
is dropped, `suggestedMaxVolume` is `none` when the field is absent. -/
structure VolumeConstraintResult where
  canHandle : Bool
  suggestedMaxVolume : Option ℚ
  marketDepth : MarketDepthAnalysis
deriving DecidableEq

/-- The JavaScript truth value of
`(totalVolume / relevantVolume) * 100 > maxVolumePercent`, spelling out
the division-by-zero case (`Infinity > x` is true, `NaN > x` false). -/
def volumePercentExceeds (totalVolume relevantVolume maxVolumePercent : ℚ) :
    Bool :=
  if relevantVolume = 0 then decide (0 < totalVolume)
  else decide (totalVolume / relevantVolume * 100 > maxVolumePercent)

/-- `checkVolumeConstraints(orderBook, totalVolume, isBuy,
maxSlippagePercent, maxVolumePercent)` (defaults 2.0 and 10.0 at call
sites). -/
def checkVolumeConstraints (orderBook : OrderBook) (totalVolume : ℚ)
    (isBuy : Bool) (maxSlippagePercent maxVolumePercent : ℚ) :
    VolumeConstraintResult :=
  let marketDepth := analyzeMarketDepth orderBook
  let relevantVolume :=
    if isBuy then marketDepth.totalAskVolume else marketDepth.totalBidVolume
  if volumePercentExceeds totalVolume relevantVolume maxVolumePercent then
    { canHandle := false,
      suggestedMaxVolume := some (relevantVolume * (maxVolumePercent / 100)),
      marketDepth := marketDepth }
  else
    let slippageInfo := calculateSlippage orderBook totalVolume isBuy
    if slippageInfo.wouldExecute = false then
      { canHandle := false,
        suggestedMaxVolume := some (relevantVolume * (8 / 10)),
        marketDepth := marketDepth }
    else if slippageInfo.slippagePercent.gtQ maxSlippagePercent then
      { canHandle := false,
        suggestedMaxVolume :=
          some (findMaxVolumeForSlippage orderBook isBuy maxSlippagePercent),
        marketDepth := marketDepth }
    else
      { canHandle := true, suggestedMaxVolume := none,
        marketDepth := marketDepth }

/-! ## `src/core/trade/vwapEnhancedTWAP.ts` — VWAP tracker and sizer -/

/-- A historical bar (`CandleData`). -/
structure CandleData where
  high : ℚ
  low : ℚ
  close : ℚ
  volume : ℚ
  timestamp : ℤ
deriving DecidableEq

/-- The VWAP tracker state (`VWAPData`); the `lastUpdated` wall-clock field
is dropped. -/
structure VWAPData where
  vwap : ℚ
  cumulativePV : ℚ
  cumulativeVolume : ℚ
deriving DecidableEq

/-- The validity test applied to each candle by `initializeVWAP`: all four
numeric fields present and positive.  (The `typeof ... === 'number'` checks
hold of every `ℚ`.) -/
def isValidCandle (c : CandleData) : Bool :=
  decide (0 < c.high) && decide (0 < c.low) && decide (0 < c.close) &&
    decide (0 < c.volume)

/-- The typical price `(high + low + close) / 3` of a bar (HLC3). -/
def hlc3 (c : CandleData) : ℚ := (c.high + c.low + c.close) / 3

/-- The accumulation loop of `initializeVWAP`: fold
`(cumulativePV, cumulativeVolume)` over the valid candles. -/
def vwapFold (candles : List CandleData) : ℚ × ℚ :=
  candles.foldl
    (fun acc c =>
      if isValidCandle c then (acc.1 + hlc3 c * c.volume, acc.2 + c.volume)
      else acc)
    (0, 0)

/-- `initializeVWAP(candles)`: fold all candles, ignoring invalid ones;
fall back to the plain average of the typical prices (over *all* candles)
when the result is non-positive.  Over exact arithmetic the fold never
yields `NaN`, so the `isNaN(vwap)` disjunct of the fallback test is
subsumed by `vwap <= 0`. -/
def initializeVWAP (candles : List CandleData) : VWAPData :=
  if candles = [] then { vwap := 0, cumulativePV := 0, cumulativeVolume := 0 }
  else
    let acc := vwapFold candles
    let vwap := if 0 < acc.2 then acc.1 / acc.2 else 0
    let avgHLC3 := (candles.map hlc3).sum / candles.length
    { vwap := if vwap ≤ 0 then avgHLC3 else vwap,
      cumulativePV := acc.1, cumulativeVolume := acc.2 }

/-- `updateVWAP(vwapData, newCandle)`: absorb one bar into the cumulative
sums.  Over exact arithmetic the quotient never yields `NaN`, so the
`isNaN(newVWAP)` guard (which retains the prior VWAP) is subsumed by the
`newCumulativeVolume > 0` test. -/
def updateVWAP (vwapData : VWAPData) (newCandle : CandleData) : VWAPData :=
  let pv := hlc3 newCandle * newCandle.volume
  let newCumulativePV := vwapData.cumulativePV + pv
  let newCumulativeVolume := vwapData.cumulativeVolume + newCandle.volume
  let newVWAP :=
    if 0 < newCumulativeVolume then newCumulativePV / newCumulativeVolume
    else vwapData.vwap
  { vwap := newVWAP, cumulativePV := newCumulativePV,
    cumulativeVolume := newCumulativeVolume }

/-- `resetVWAP(startingCandle?)`: start a new session, optionally seeded
with one bar's contribution. -/
def resetVWAP (startingCandle : Option CandleData) : VWAPData :=
  match startingCandle with
  | some c =>
    { vwap := hlc3 c, cumulativePV := hlc3 c * c.volume,
      cumulativeVolume := c.volume }
  | none => { vwap := 0, cumulativePV := 0, cumulativeVolume := 0 }

/-- The result record of `calculateVWAPOrderSize` (`VWAPOrderSizing`); the
`reasoning` string is dropped.  `priceDeviation` holds the percentage, as
in the source. -/
structure VWAPOrderSizing where
  baseSize : ℚ
  adjustedSize : ℚ
  multiplier : ℚ
  priceDeviation : ℚ
deriving DecidableEq

/-- `calculateVWAPOrderSize(baseSize, currentPrice, vwap, alpha,
maxMultiplier, minMultiplier)`.  The degraded-mode guard
`!baseSize || !currentPrice || !vwap || currentPrice <= 0 || vwap <= 0`
is spelled out; over exact arithmetic the raw multiplier is never `NaN`,
so the `isNaN` fallbacks (to `1` and to `baseSize`) are unreachable. -/
def calculateVWAPOrderSize (baseSize currentPrice vwap alpha maxMultiplier
    minMultiplier : ℚ) : VWAPOrderSizing :=
  if baseSize = 0 ∨ currentPrice = 0 ∨ vwap = 0 ∨ currentPrice ≤ 0 ∨ vwap ≤ 0
  then
    { baseSize := baseSize, adjustedSize := baseSize, multiplier := 1,
      priceDeviation := 0 }
  else
    let priceDeviation := (vwap - currentPrice) / vwap
    let rawMultiplier := 1 + alpha * priceDeviation
    let multiplier := max minMultiplier (min maxMultiplier rawMultiplier)
    { baseSize := baseSize, adjustedSize := baseSize * multiplier,
      multiplier := multiplier, priceDeviation := priceDeviation * 100 }

/-- `roundOrderSizeForAsset(size, assetDecimals)`: round to the asset's
size precision (`Math.round` semantics). -/
def roundOrderSizeForAsset (size : ℚ) (assetDecimals : ℕ) : ℚ :=
  if assetDecimals = 0 then (jsRound size : ℚ)
  else (jsRound (size * 10 ^ assetDecimals) : ℚ) / 10 ^ assetDecimals

/-! ## `src/core/hyperliquid/formatting.ts`

A JavaScript number is a binary float, hence an exactly representable
*finite decimal*; `x.toString()` prints its canonical (shortest) decimal
form and `x.toFixed(k)` its half-up rounding to `k` decimal places.  We
model a price as a rational together with that decimal structure:
`minDecs v` is the number of fraction digits of the canonical decimal form
of `v`, and a price *string* is a value paired with its fraction-digit
count (`PriceStr`), which is all `validateHyperliquidPrice` inspects of
the string beyond the value `parseFloat` recovers. -/

/-- Search for the least `k ≥ start` (within `fuel` steps) such that
`v * 10 ^ k` is an integer. -/
def minDecsAux (v : ℚ) : ℕ → ℕ → ℕ
  | 0, k => k
  | fuel + 1, k =>
    if (v * 10 ^ k).den = 1 then k else minDecsAux v fuel (k + 1)

/-- The number of fraction digits of the canonical decimal form of `v`:
the least `k` with `v * 10 ^ k ∈ ℤ` (meaningful when `v` is a finite
decimal; `v.den` steps always suffice for those, see
`minDecs_spec`). -/
def minDecs (v : ℚ) : ℕ := minDecsAux v (v.den + 1) 0

/-- `v` is a finite decimal — the exact values JavaScript numbers can
take.  The bound `v.den` on the needed power of ten always suffices
(every binary float `p / 2^t` satisfies `t ≤ 2^t = den`). -/
def IsDecimal (v : ℚ) : Prop := (v * 10 ^ v.den).den = 1

instance (v : ℚ) : Decidable (IsDecimal v) := by
  unfold IsDecimal; infer_instance

/-- The number of significant figures the formatter/validator counts on
the canonical decimal string of `v`: all digits from the first nonzero
one to the end of the string (trailing zeros of a fractional part never
occur in canonical form; trailing zeros of an integer are counted, but
integers short-circuit validation). -/
def sigFigs (v : ℚ) : ℕ :=
  (Nat.digits 10 (v * 10 ^ minDecs v).num.natAbs).length

/-- `parseFloat(x.toFixed(m))` and `Math.round(x * 10^m) / 10^m`: the
value of `x` rounded half-up to `m` decimal places (`m` may be negative
for the significant-figure rounding step). -/
def roundToFixed (v : ℚ) (m : ℤ) : ℚ :=
  (⌊v * (10 : ℚ) ^ m + 1 / 2⌋ : ℚ) / (10 : ℚ) ^ m

/-- Search for the least `k ≥ start` (within `fuel` steps) such that
`1 ≤ v * 10 ^ k`. -/
def log10UpAux (v : ℚ) : ℕ → ℕ → ℕ
  | 0, k => k
  | fuel + 1, k =>
    if 1 ≤ v * 10 ^ k then k else log10UpAux v fuel (k + 1)

/-- `Math.floor(Math.log10(v))` for positive `v`: the exponent `e` with
`10 ^ e ≤ v < 10 ^ (e + 1)`. -/
def jsLog10Floor (v : ℚ) : ℤ :=
  if 1 ≤ v then ((Nat.digits 10 (⌊v⌋).toNat).length : ℤ) - 1
  else -(log10UpAux v (v.den + 1) 1)

/-- A venue price string: the value `parseFloat` recovers from it,
together with its number of fraction digits.  Strings produced by
`toString` are canonical: their fraction-digit count is `minDecs` of the
value. -/
structure PriceStr where
  val : ℚ
  decs : ℕ
deriving DecidableEq

/-- `MAX_DECIMALS_SPOT = 8`, `MAX_DECIMALS_PERP = 6`. -/
def maxDecimalsFor (isSpot : Bool) : ℕ := if isSpot then 8 else 6

/-- `formatHyperliquidPrice(price, szDecimals, isSpot)`: integers pass
through; otherwise prices with at most 5 significant figures are limited
to `maxDecimals - szDecimals` decimal places, and prices with more are
first rounded to 5 significant figures.  (For `szDecimals > maxDecimals`
the source's `toFixed` would throw; the claims only concern legal
configurations, where the exponent is nonnegative.) -/
def formatHyperliquidPrice (price : ℚ) (szDecimals : ℕ) (isSpot : Bool) :
    PriceStr :=
  let maxDecimalPlaces : ℤ := (maxDecimalsFor isSpot : ℤ) - szDecimals
  if price.den = 1 then ⟨price, 0⟩
  else if sigFigs price ≤ 5 then
    let limitedByDecimals := roundToFixed price maxDecimalPlaces
    ⟨limitedByDecimals, minDecs limitedByDecimals⟩
  else
    -- multiplier = 10 ^ (5 - floor(log10 |price|) - 1)
    let e := jsLog10Floor |price|
    let roundedPrice := roundToFixed price (4 - e)
    let finalPrice := roundToFixed roundedPrice maxDecimalPlaces
    ⟨finalPrice, minDecs finalPrice⟩

/-- `validateHyperliquidPrice(priceStr, szDecimals, isSpot).isValid`:
integers are always valid; otherwise the string's decimal places must not
exceed `maxDecimals - szDecimals` and the value's significant figures
must not exceed 5.  The diagnostic `reason` is dropped. -/
def validateHyperliquidPrice (p : PriceStr) (szDecimals : ℕ)
    (isSpot : Bool) : Bool :=
  let maxDecimalPlaces : ℤ := (maxDecimalsFor isSpot : ℤ) - szDecimals
  if p.val.den = 1 then true
  else if (p.decs : ℤ) > maxDecimalPlaces then false
  else if 5 < sigFigs p.val then false
  else true

/-! ## `src/core/trade/riskManager.ts` -/

/-- The order side (`'buy' | 'sell'`). -/
inductive Side where
  | buy
  | sell
deriving DecidableEq

/-- Alert severity (`'warning' | 'critical'`). -/
inductive AlertType where
  | warning
  | critical
deriving DecidableEq

/-- The `metric: keyof RiskMetrics` discriminant of an alert. -/
inductive MetricKey where
  | priceDeviation
  | currentSpread
  | orderSizeRatio
  | estimatedSlippage
  | totalExposure
deriving DecidableEq

/-- A `RiskAlert`; the `message` string is dropped.  `currentValue` may be
a non-finite number (e.g. the spread of a degenerate book). -/
structure RiskAlert where
  type : AlertType
  metric : MetricKey
  currentValue : JsNum
  limit : ℚ
  timestamp : ℤ
deriving DecidableEq

/-- The `RiskLimits` record. -/
structure RiskLimits where
  maxPriceDeviation : ℚ
  maxVolumeRatio : ℚ
  maxSlippage : ℚ
  minSpread : ℚ
  maxOrderValue : ℚ
  maxTotalExposure : ℚ
deriving DecidableEq

/-- The mutable state of a `RiskManager` instance. -/
structure RMState where
  alerts : List RiskAlert
  isHalted : Bool
  startPrice : ℚ
deriving DecidableEq

/-- `RiskManager.initialize(startPrice)`. -/
def rmInitialize (startPrice : ℚ) : RMState :=
  { alerts := [], isHalted := false, startPrice := startPrice }

/-- The `RiskMetrics` record. -/
structure RiskMetrics where
  currentPrice : ℚ
  startPrice : ℚ
  priceDeviation : ℚ
  currentSpread : JsNum
  marketVolume24h : ℚ
  orderSizeRatio : ℚ
  estimatedSlippage : JsNum
  totalExposure : ℚ
deriving DecidableEq

/-- The expression `Math.abs(averagePrice - firstPrice) / firstPrice` of
the risk manager's slippage estimate, lifted to a possibly-`NaN` average
price (the result is `+Infinity` whenever either operand is infinite or
the first price is zero with a nonzero average). -/
def jsnAbsDevRatio (avg : JsNum) (firstPrice : ℚ) : JsNum :=
  match avg with
  | .num a =>
    if firstPrice = 0 then (if a = 0 then .nan else .inf)
    else .num (|a - firstPrice| / firstPrice)
  | .inf => .inf
  | .ninf => .inf
  | .nan => .nan

/-- The level walk of `RiskManager.estimateSlippage` (no sort, no entry
break), returning the final `(remainingSize, totalCost)`. -/
def riskWalk : List Level → ℚ → ℚ → ℚ × ℚ
  | [], rem, cost => (rem, cost)
  | l :: ls, rem, cost =>
    let sizeToTake := min rem l.sz
    let cost' := cost + sizeToTake * l.px
    let rem' := rem - sizeToTake
    if rem' ≤ 0 then (rem', cost') else riskWalk ls rem' cost'

/-- `RiskManager.estimateSlippage(orderSize, orderbook, side)`: walk the
relevant side in book order; `1` (100%) when liquidity is insufficient. -/
def riskEstimateSlippage (orderSize : ℚ) (orderbook : OrderBook)
    (side : Side) : JsNum :=
  let levels := if side = Side.buy then orderbook.asks else orderbook.bids
  if levels = [] then .num 1
  else
    let w := riskWalk levels orderSize 0
    if 0 < w.1 then .num 1
    else
      let firstPrice := ((levels.head?).getD ⟨0, 0⟩).px
      jsnAbsDevRatio (jsDivJ w.2 orderSize) firstPrice

/-- `RiskManager.calculateRiskMetrics(orderSize, currentPrice,
executedVolume)`; the order-book fetch is an explicit `Option OrderBook`
parameter (`none` models an unavailable book). -/
def calculateRiskMetrics (side : Side) (startPrice : ℚ)
    (orderSize currentPrice executedVolume : ℚ) (ob : Option OrderBook) :
    RiskMetrics :=
  let marketVolume24h : ℚ := 1000000
  let spreadSlip : JsNum × JsNum :=
    match ob with
    | some b =>
      if b.bids ≠ [] ∧ b.asks ≠ [] then
        let bestBid := ((b.bids.head?).getD ⟨0, 0⟩).px
        let bestAsk := ((b.asks.head?).getD ⟨0, 0⟩).px
        (jsDivJ (bestAsk - bestBid) bestBid,
          riskEstimateSlippage orderSize b side)
      else (.num 0, .num 0)
    | none => (.num 0, .num 0)
  let priceDeviation :=
    if 0 < startPrice then (currentPrice - startPrice) / startPrice * 100
    else 0
  { currentPrice := currentPrice, startPrice := startPrice,
    priceDeviation := priceDeviation, currentSpread := spreadSlip.1,
    marketVolume24h := marketVolume24h,
    orderSizeRatio := orderSize / max (marketVolume24h / 1440) 1,
    estimatedSlippage := spreadSlip.2,
    totalExposure := executedVolume * currentPrice }

/-- The `(canProceed, newAlerts)` half of a `checkRiskLimits` result. -/
structure RiskCheckResult where
  canProceed : Bool
  alerts : List RiskAlert
deriving DecidableEq

/-- `RiskManager.checkRiskLimits(orderSize, currentPrice, executedVolume)`:
evaluate the five limits on fresh metrics, append the new alerts, halt on
any critical alert, and report `canProceed`.  The fetched book and the
wall clock are explicit parameters; the `onAlert` callback is dropped. -/
def checkRiskLimits (limits : RiskLimits) (side : Side) (s : RMState)
    (orderSize currentPrice executedVolume : ℚ) (ob : Option OrderBook)
    (now : ℤ) : RiskCheckResult × RMState :=
  let metrics :=
    calculateRiskMetrics side s.startPrice orderSize currentPrice
      executedVolume ob
  let a1 : List RiskAlert :=
    if limits.maxPriceDeviation < |metrics.priceDeviation| then
      [{ type := .critical, metric := .priceDeviation,
         currentValue := .num |metrics.priceDeviation|,
         limit := limits.maxPriceDeviation, timestamp := now }]
    else []
  let a2 : List RiskAlert :=
    if metrics.currentSpread.ltQ limits.minSpread then
      [{ type := .warning, metric := .currentSpread,
         currentValue := metrics.currentSpread, limit := limits.minSpread,
         timestamp := now }]
    else []
  let a3 : List RiskAlert :=
    if limits.maxVolumeRatio < metrics.orderSizeRatio then
      [{ type := .warning, metric := .orderSizeRatio,
         currentValue := .num metrics.orderSizeRatio,
         limit := limits.maxVolumeRatio, timestamp := now }]
    else []
  let a4 : List RiskAlert :=
    if metrics.estimatedSlippage.gtQ limits.maxSlippage then
      [{ type := .critical, metric := .estimatedSlippage,
         currentValue := metrics.estimatedSlippage,
         limit := limits.maxSlippage, timestamp := now }]
    else []
  let a5 : List RiskAlert :=
    if limits.maxTotalExposure < metrics.totalExposure then
      [{ type := .critical, metric := .totalExposure,
         currentValue := .num metrics.totalExposure,
         limit := limits.maxTotalExposure, timestamp := now }]
    else []
  let newAlerts := a1 ++ a2 ++ a3 ++ a4 ++ a5
  let criticalAlerts := newAlerts.filter (fun a => a.type = AlertType.critical)
  let canProceed := criticalAlerts.length = 0 ∧ s.isHalted = false
  let isHalted' := if 0 < criticalAlerts.length then true else s.isHalted
  ({ canProceed := canProceed, alerts := newAlerts },
    { alerts := s.alerts ++ newAlerts, isHalted := isHalted',
      startPrice := s.startPrice })

/-- `RiskManager.resumeExecution()`. -/
def resumeExecution (s : RMState) : RMState :=
  { s with isHalted := false }

/-- `RiskManager.isExecutionHalted()`. -/
def isExecutionHalted (s : RMState) : Bool := s.isHalted

/-- `RiskManager.getActiveAlerts()`: alerts from the last five minutes. -/
def getActiveAlerts (s : RMState) (now : ℤ) : List RiskAlert :=
  s.alerts.filter (fun a => now - 5 * 60 * 1000 < a.timestamp)

/-- One interaction with a `RiskManager` instance: a `checkRiskLimits`
call (with its inputs and fetched book) or a `resumeExecution` call. -/
inductive RMEvent where
  | check (orderSize currentPrice executedVolume : ℚ) (ob : Option OrderBook)
      (now : ℤ)
  | resume
deriving DecidableEq

/-- The state transition of one `RMEvent`. -/
def rmStep (limits : RiskLimits) (side : Side) (s : RMState) :
    RMEvent → RMState
  | .check os p ev ob now => (checkRiskLimits limits side s os p ev ob now).2
  | .resume => resumeExecution s

/-- Run a sequence of interactions against a `RiskManager`. -/
def rmRun (limits : RiskLimits) (side : Side) (s : RMState)
    (events : List RMEvent) : RMState :=
  events.foldl (rmStep limits side) s

/-! ## `src/core/trade/twapExecutor.ts` -/

/-- The run configuration (`VWAPEnhancedConfig`). -/
structure VWAPEnhancedConfig where
  totalSize : ℚ
  totalOrders : ℕ
  timeInterval : ℚ
  maxSlippagePercent : ℚ
  vwapAlpha : ℚ
  maxMultiplier : ℚ
  minMultiplier : ℚ
  vwapPeriod : ℕ
  asset : String
  side : Side

/-- The run status (`ExecutionStatus`); `'executing'` is only an interim
value inside `execute`. -/
inductive ExecutionStatus where
  | pending
  | executing
  | completed
  | cancelled
  | failed
deriving DecidableEq

/-- One recorded slice (`TWAPOrderResult`); the wall-clock `timestamp` and
the diagnostic `error` string are dropped. -/
structure TWAPOrderResult where
  orderNumber : ℕ
  success : Bool
  orderId : Option String
  size : ℚ
  price : ℚ
  vwapMultiplier : ℚ
deriving DecidableEq

/-- The raw market metadata the executor fetches
(`getMarketInfo`): `assetInfo?.index` and `szDecimals`, each possibly
absent. -/
structure MarketInfoRaw where
  index : Option ℕ
  szDecimals : Option ℕ
deriving DecidableEq

/-- The `{ assetIndex, assetDecimals }` record `getMarketInformation`
derives: absent fields default to `0` and `4`. -/
structure MarketInfo where
  assetIndex : ℕ
  assetDecimals : ℕ
deriving DecidableEq

/-- The outcome `placeOrder` resolves to. -/
structure PlaceOrderOutcome where
  success : Bool
  orderId : Option String
deriving DecidableEq

/-- The external world of one slice: the top-of-book price
`getCurrentMarketPrice` would return (`none` = fetch threw) and the
submission outcome (`none` = `placeOrder` threw). -/
structure OrderEnv where
  priceResult : Option ℚ
  placeResult : Option PlaceOrderOutcome

/-- `LiveTWAPExecutor.executeOrder(config, marketInfo, vwapData,
baseOrderSize, orderNumber)`: price fetch, VWAP sizing, size rounding,
slippage-buffered and clamped limit price, formatting, validation and
submission.  `none` models a thrown exception (price fetch failure,
failed price validation, or submission throw). -/
def executeOrder (config : VWAPEnhancedConfig) (marketInfo : MarketInfo)
    (vwapData : VWAPData) (baseOrderSize : ℚ) (orderNumber : ℕ)
    (env : OrderEnv) : Option TWAPOrderResult :=
  match env.priceResult with
  | none => none
  | some currentMarketPrice =>
    let vwapOrderSize :=
      calculateVWAPOrderSize baseOrderSize currentMarketPrice vwapData.vwap
        config.vwapAlpha config.maxMultiplier config.minMultiplier
    let roundedSize :=
      roundOrderSizeForAsset vwapOrderSize.adjustedSize
        marketInfo.assetDecimals
    -- slippageBuffer = 0.001, in the order's favor
    let orderPrice :=
      if config.side = Side.buy then currentMarketPrice * (1 + 1 / 1000)
      else currentMarketPrice * (1 - 1 / 1000)
    -- maxPriceDeviation = 0.75 safety band around the market price
    let minAllowedPrice := currentMarketPrice * (1 - 3 / 4)
    let maxAllowedPrice := currentMarketPrice * (1 + 3 / 4)
    let constrainedPrice := max minAllowedPrice (min maxAllowedPrice orderPrice)
    let formattedPrice :=
      formatHyperliquidPrice constrainedPrice marketInfo.assetDecimals false
    if validateHyperliquidPrice formattedPrice marketInfo.assetDecimals false
    then
      match env.placeResult with
      | none => none
      | some orderResult =>
        some { orderNumber := orderNumber, success := orderResult.success,
               orderId := orderResult.orderId, size := roundedSize,
               price := formattedPrice.val,
               vwapMultiplier := vwapOrderSize.multiplier }
    else none

/-- The stub slice `handleOrderError` records when a slice's pipeline
throws. -/
def failedOrderResult (orderNumber : ℕ) : TWAPOrderResult :=
  { orderNumber := orderNumber, success := false, orderId := none,
    size := 0, price := 0, vwapMultiplier := 0 }

/-- The running counters of `TWAPExecutionState` together with the
`orderResults` log.  `averagePrice` follows the source's running formula;
its `0 / 0` corner (a successful slice of size `0` as the only volume) is
modelled with rational division (`0`). -/
structure ExecState where
  successfulOrders : ℕ
  failedOrders : ℕ
  totalExecuted : ℚ
  averagePrice : ℚ
  results : List TWAPOrderResult
deriving DecidableEq

/-- The loop body of `execute` for slice index `i` (0-based): run the
slice's pipeline, record its result, and update the counters
(`updateAveragePrice` on success, `handleOrderError` on a throw). -/
def execStep (config : VWAPEnhancedConfig) (marketInfo : MarketInfo)
    (vwapData : VWAPData) (baseOrderSize : ℚ) (envs : ℕ → OrderEnv)
    (s : ExecState) (i : ℕ) : ExecState :=
  match executeOrder config marketInfo vwapData baseOrderSize (i + 1)
      (envs i) with
  | some r =>
    if r.success then
      let totalExecuted' := s.totalExecuted + r.size
      let currentTotal := s.averagePrice * (totalExecuted' - r.size)
      { successfulOrders := s.successfulOrders + 1,
        failedOrders := s.failedOrders,
        totalExecuted := totalExecuted',
        averagePrice := (currentTotal + r.price * r.size) / totalExecuted',
        results := s.results ++ [r] }
    else
      { s with failedOrders := s.failedOrders + 1,
               results := s.results ++ [r] }
  | none =>
    { s with failedOrders := s.failedOrders + 1,
             results := s.results ++ [failedOrderResult (i + 1)] }

/-- The slice loop of `execute` over the 0-based indices `is`. -/
def execLoop (config : VWAPEnhancedConfig) (marketInfo : MarketInfo)
    (vwapData : VWAPData) (baseOrderSize : ℚ) (envs : ℕ → OrderEnv) :
    List ℕ → ExecState → ExecState
  | [], s => s
  | i :: is, s =>
    execLoop config marketInfo vwapData baseOrderSize envs is
      (execStep config marketInfo vwapData baseOrderSize envs s i)

/-- The fresh counters at the start of a run. -/
def initialExecState : ExecState :=
  { successfulOrders := 0, failedOrders := 0, totalExecuted := 0,
    averagePrice := 0, results := [] }

/-- `LiveTWAPExecutor.execute(config, candles)` for an uninterrupted run
(no concurrent `stop()` call, so the final status is never `cancelled`
here).  `privateKeyValid` models `ethers.isHexString(privateKey, 32)`;
`marketInfoRaw = none` models a failed metadata lookup.  A run-level
failure (configuration validation or metadata lookup) yields status
`failed` with no slices recorded; otherwise every slice runs, per-slice
throws are degraded by `handleOrderError`, and the run completes. -/
def execute (config : VWAPEnhancedConfig) (candles : List CandleData)
    (privateKeyValid : Bool) (marketInfoRaw : Option MarketInfoRaw)
    (envs : ℕ → OrderEnv) : ExecutionStatus × ExecState :=
  if config.asset = "" ∨ config.totalSize ≤ 0 ∨ config.totalOrders = 0 then
    (.failed, initialExecState)
  else if privateKeyValid = false then (.failed, initialExecState)
  else
    match marketInfoRaw with
    | none => (.failed, initialExecState)
    | some raw =>
      let marketInfo : MarketInfo :=
        { assetIndex := raw.index.getD 0,
          assetDecimals := raw.szDecimals.getD 4 }
      let vwapData := initializeVWAP candles
      let baseOrderSize := config.totalSize / config.totalOrders
      (.completed,
        execLoop config marketInfo vwapData baseOrderSize envs
          (List.range config.totalOrders) initialExecState)

/-- The slice result the loop records for 0-based index `i`: the
pipeline's result, or the `handleOrderError` stub if it threw. -/
def sliceResultOf (config : VWAPEnhancedConfig) (marketInfo : MarketInfo)
    (vwapData : VWAPData) (baseOrderSize : ℚ) (envs : ℕ → OrderEnv)
    (i : ℕ) : TWAPOrderResult :=
  (executeOrder config marketInfo vwapData baseOrderSize (i + 1)
      (envs i)).getD (failedOrderResult (i + 1))

/-! ## Verified properties -/

/-- Claim C3: for every VWAP state satisfying
`vwap = cumulativePV / cumulativeVolume` whenever `cumulativeVolume > 0`,
the state returned by `updateVWAP` (absorb) satisfies the same equation;
and absorbing a bar with `volume = 0` leaves the `vwap` field
unchanged. -/
theorem updateVWAP_invariant (d : VWAPData) (c : CandleData)
    (hinv : 0 < d.cumulativeVolume →
      d.vwap = d.cumulativePV / d.cumulativeVolume) :
    (0 < (updateVWAP d c).cumulativeVolume →
      (updateVWAP d c).vwap =
        (updateVWAP d c).cumulativePV / (updateVWAP d c).cumulativeVolume) ∧
    (c.volume = 0 → (updateVWAP d c).vwap = d.vwap) := by
  constructor
  · intro h
    unfold updateVWAP at *
    simp only at h ⊢
    rw [if_pos h]
  · intro hv
    unfold updateVWAP
    simp only [hv, mul_zero, add_zero]
    by_cases h : 0 < d.cumulativeVolume
    · rw [if_pos h, ← hinv h]
    · rw [if_neg h]

/-- Witness for `updateVWAP_invariant`: a concrete state with the
invariant and a zero-volume bar. -/
theorem updateVWAP_invariant_witness :
    (updateVWAP ⟨2, 10, 5⟩ ⟨1, 1, 1, 0, 0⟩).vwap = 2 :=
  (updateVWAP_invariant ⟨2, 10, 5⟩ ⟨1, 1, 1, 0, 0⟩ (by norm_num)).2 rfl

/-- Claim C4, counterexample: with bounds `[2, 3]` the degraded mode
(zero `baseSize`) returns multiplier `1`, outside
`[minMultiplier, maxMultiplier]`. -/
theorem calculateVWAPOrderSize_multiplier_outside_bounds :
    (calculateVWAPOrderSize 0 10 10 (1 / 2) 3 2).multiplier = 1 ∧
    ¬(2 ≤ (calculateVWAPOrderSize 0 10 10 (1 / 2) 3 2).multiplier ∧
      (calculateVWAPOrderSize 0 10 10 (1 / 2) 3 2).multiplier ≤ 3) := by
  decide

/-- Claim C4 (amended): whenever `minMultiplier ≤ 1 ≤ maxMultiplier` (as
with the documented defaults `0.1` and `5`), the returned multiplier lies
in `[minMultiplier, maxMultiplier]` — including the degraded mode, which
returns `1`.  Over exact arithmetic the raw multiplier is never `NaN`. -/
theorem calculateVWAPOrderSize_multiplier_bounds
    (baseSize currentPrice vwap alpha minMultiplier maxMultiplier : ℚ)
    (hmin : minMultiplier ≤ 1) (hmax : 1 ≤ maxMultiplier) :
    minMultiplier ≤ (calculateVWAPOrderSize baseSize currentPrice vwap alpha
        maxMultiplier minMultiplier).multiplier ∧
    (calculateVWAPOrderSize baseSize currentPrice vwap alpha maxMultiplier
        minMultiplier).multiplier ≤ maxMultiplier := by
  unfold calculateVWAPOrderSize
  split_ifs with h
  · exact ⟨hmin, hmax⟩
  · exact ⟨le_max_left _ _, max_le (hmin.trans hmax) (min_le_left _ _)⟩

/-- Witness for `calculateVWAPOrderSize_multiplier_bounds` at a concrete
input. -/
theorem calculateVWAPOrderSize_multiplier_bounds_witness :
    (1 / 2 : ℚ) ≤
      (calculateVWAPOrderSize 10 90 100 1 2 (1 / 2)).multiplier ∧
    (calculateVWAPOrderSize 10 90 100 1 2 (1 / 2)).multiplier ≤ 2 :=
  calculateVWAPOrderSize_multiplier_bounds 10 90 100 1 (1 / 2) 2
    (by norm_num) (by norm_num)

/-- A `checkRiskLimits` call that raises a critical alert sets the halt
latch. -/
theorem checkRiskLimits_halts_on_critical (limits : RiskLimits) (side : Side)
    (s : RMState) (os p ev : ℚ) (ob : Option OrderBook) (now : ℤ)
    (hcrit : ∃ a ∈ (checkRiskLimits limits side s os p ev ob now).1.alerts,
      a.type = AlertType.critical) :
    (checkRiskLimits limits side s os p ev ob now).2.isHalted = true := by
  obtain ⟨a, ha, hty⟩ := hcrit
  unfold checkRiskLimits at ha ⊢
  simp only at ha ⊢
  have hmem : a ∈ List.filter (fun a => a.type = AlertType.critical) _ :=
    List.mem_filter.mpr ⟨ha, by simp [hty]⟩
  rw [if_pos (List.length_pos.mpr (List.ne_nil_of_mem hmem))]

/-- A halted risk monitor stays halted across any events that are not
`resumeExecution`. -/
theorem rmRun_stays_halted (limits : RiskLimits) (side : Side)
    (events : List RMEvent) (s : RMState) (hh : s.isHalted = true)
    (hnr : ∀ e ∈ events, e ≠ RMEvent.resume) :
    (rmRun limits side s events).isHalted = true := by
  induction events generalizing s with
  | nil => exact hh
  | cons e es ih =>
    have he : e ≠ RMEvent.resume := hnr e (List.mem_cons_self e es)
    have hs' : (rmStep limits side s e).isHalted = true := by
      cases e with
      | check os p ev ob now =>
        unfold rmStep checkRiskLimits
        simp only
        split_ifs <;> simp [hh]
      | resume => exact absurd rfl he
    exact ih _ hs' (fun e' he' => hnr e' (List.mem_cons_of_mem e he'))

/-- A halted risk monitor reports `canProceed = false` on every check. -/
theorem checkRiskLimits_canProceed_false_of_halted (limits : RiskLimits)
    (side : Side) (s : RMState) (os p ev : ℚ) (ob : Option OrderBook)
    (now : ℤ) (hh : s.isHalted = true) :
    (checkRiskLimits limits side s os p ev ob now).1.canProceed = false := by
  unfold checkRiskLimits
  simp [hh]

/-- Claim C2: in any interaction sequence with a risk monitor, once a
`checkRiskLimits` call raises a critical alert, every later
`checkRiskLimits` call returns `canProceed = false` as long as no
`resumeExecution` occurred in between — even if no limit is breached in
the later call. -/
theorem riskManager_halt_latch (limits : RiskLimits) (side : Side)
    (s0 : RMState) (pre mid : List RMEvent) (os1 p1 ev1 : ℚ)
    (ob1 : Option OrderBook) (t1 : ℤ) (os2 p2 ev2 : ℚ)
    (ob2 : Option OrderBook) (t2 : ℤ)
    (hcrit : ∃ a ∈ (checkRiskLimits limits side (rmRun limits side s0 pre)
        os1 p1 ev1 ob1 t1).1.alerts, a.type = AlertType.critical)
    (hnores : ∀ e ∈ mid, e ≠ RMEvent.resume) :
    (checkRiskLimits limits side
        (rmRun limits side s0 (pre ++ RMEvent.check os1 p1 ev1 ob1 t1 :: mid))
        os2 p2 ev2 ob2 t2).1.canProceed = false := by
  have hsplit :
      rmRun limits side s0 (pre ++ RMEvent.check os1 p1 ev1 ob1 t1 :: mid) =
        rmRun limits side
          (rmStep limits side (rmRun limits side s0 pre)
            (RMEvent.check os1 p1 ev1 ob1 t1)) mid := by
    unfold rmRun
    rw [List.foldl_append, List.foldl_cons]
  have hhalt1 :
      (rmStep limits side (rmRun limits side s0 pre)
        (RMEvent.check os1 p1 ev1 ob1 t1)).isHalted = true :=
    checkRiskLimits_halts_on_critical limits side _ os1 p1 ev1 ob1 t1 hcrit
  have hhalt2 := rmRun_stays_halted limits side mid _ hhalt1 hnores
  rw [hsplit]
  exact checkRiskLimits_canProceed_false_of_halted limits side _ os2 p2 ev2
    ob2 t2 hhalt2

/-- Witness for `riskManager_halt_latch`: a price-deviation breach halts
the monitor, and a later clean check still reports `canProceed = false`. -/
theorem riskManager_halt_latch_witness :
    (checkRiskLimits ⟨1, 1, 1, 0, 25000, 250000⟩ Side.buy
        (rmRun ⟨1, 1, 1, 0, 25000, 250000⟩ Side.buy (rmInitialize 100)
          ([] ++ RMEvent.check 1 200 0 none 0 :: [RMEvent.check 1 100 0 none 1]))
        1 100 0 none 2).1.canProceed = false :=
  riskManager_halt_latch ⟨1, 1, 1, 0, 25000, 250000⟩ Side.buy
    (rmInitialize 100) [] [RMEvent.check 1 100 0 none 1] 1 200 0 none 0
    1 100 0 none 2
    (by norm_num [checkRiskLimits, calculateRiskMetrics, rmRun, rmInitialize,
      JsNum.ltQ, JsNum.gtQ])
    (by decide)

/-- The slippage walk consumes nothing once the requested size is
exhausted. -/
theorem walkLevels_of_nonpos (L : List Level) (rem cost : ℚ) (depth : ℕ)
    (h : rem ≤ 0) : walkLevels L rem cost depth = (rem, cost, depth) := by
  cases L with
  | nil => rfl
  | cons l ls => unfold walkLevels; rw [if_pos h]

/-- The remaining size after the slippage walk is at least the requested
size minus the total size on offer (for a book with nonnegative level
sizes). -/
theorem walkLevels_remaining_lower (L : List Level) (rem cost : ℚ)
    (depth : ℕ) (hnn : ∀ l ∈ L, 0 ≤ l.sz) :
    rem - (L.map (·.sz)).sum ≤ (walkLevels L rem cost depth).1 := by
  induction L generalizing rem cost depth with
  | nil => simp [walkLevels]
  | cons l ls ih =>
    have hsum : 0 ≤ (ls.map (·.sz)).sum :=
      List.sum_nonneg (by
        intro x hx
        obtain ⟨a, ha, rfl⟩ := List.mem_map.mp hx
        exact hnn a (List.mem_cons_of_mem l ha))
    have hl : 0 ≤ l.sz := hnn l (List.mem_cons_self l ls)
    unfold walkLevels
    split_ifs with h
    · simp only
      have : 0 ≤ (List.map (·.sz) (l :: ls)).sum := by
        simp only [List.map_cons, List.sum_cons]
        positivity
      linarith
    · simp only [List.map_cons, List.sum_cons]
      have hstep := ih (rem - min rem l.sz)
        (cost + min rem l.sz * l.px) (depth + 1)
        (fun a ha => hnn a (List.mem_cons_of_mem l ha))
      have : rem - (l.sz + (ls.map (·.sz)).sum) ≤
          rem - min rem l.sz - (ls.map (·.sz)).sum := by
        have := min_le_right rem l.sz
        linarith
      exact this.trans hstep

/-- The sort step permutes the levels. -/
theorem sortLevels_perm (isBuy : Bool) (L : List Level) :
    List.Perm (sortLevels isBuy L) L := by
  unfold sortLevels
  split_ifs <;> exact List.perm_insertionSort _ _

/-- Claim C6 (amended): with at least one level on the opposing side, a
zero-size order reports `wouldExecute = true` but its `slippagePercent`
is the JavaScript `NaN` (`0 / 0`), not `0`; and a size strictly exceeding
the total opposing depth (sizes being nonnegative) reports
`wouldExecute = false` with `slippagePercent` saturated at `100`. -/
theorem calculateSlippage_boundary (orderBook : OrderBook) (size : ℚ)
    (isBuy : Bool) :
    ((if isBuy then orderBook.asks else orderBook.bids) ≠ [] → size = 0 →
      (calculateSlippage orderBook size isBuy).wouldExecute = true ∧
      (calculateSlippage orderBook size isBuy).slippagePercent = .nan) ∧
    ((∀ l ∈ (if isBuy then orderBook.asks else orderBook.bids), 0 ≤ l.sz) →
      (((if isBuy then orderBook.asks else orderBook.bids).map (·.sz)).sum
          < size →
        (calculateSlippage orderBook size isBuy).wouldExecute = false ∧
        (calculateSlippage orderBook size isBuy).slippagePercent =
          .num 100)) := by
  set L := (if isBuy then orderBook.asks else orderBook.bids) with hLdef
  constructor
  · intro hne hsz
    subst hsz
    have hw := walkLevels_of_nonpos (sortLevels isBuy L) 0 0 0 le_rfl
    unfold calculateSlippage
    rw [← hLdef, if_neg hne]
    simp only [hw]
    norm_num [slipPercentOf]
  · intro hnn hlt
    unfold calculateSlippage
    rw [← hLdef]
    by_cases hne : L = []
    · rw [if_pos hne]
      exact ⟨rfl, rfl⟩
    · rw [if_neg hne]
      have hperm := sortLevels_perm isBuy L
      have hsum : ((sortLevels isBuy L).map (·.sz)).sum =
          (L.map (·.sz)).sum := (hperm.map (·.sz)).sum_eq
      have hnn' : ∀ l ∈ sortLevels isBuy L, 0 ≤ l.sz :=
        fun l hl => hnn l (hperm.mem_iff.mp hl)
      have hlow := walkLevels_remaining_lower (sortLevels isBuy L) size 0 0
        hnn'
      rw [hsum] at hlow
      have hpos : 0 < (walkLevels (sortLevels isBuy L) size 0 0).1 :=
        lt_of_lt_of_le (by linarith) hlow
      have hdec : decide ((walkLevels (sortLevels isBuy L) size 0 0).1 ≤ 0)
          = false := decide_eq_false (not_le.mpr hpos)
      simp only [hdec]
      norm_num

/-- Claim C6, counterexample to the claim as stated: on a book whose ask
side is the single level `(10, 1)`, a zero-size buy yields
`wouldExecute = true` but `slippagePercent` is `NaN` (the source computes
`0 / 0`), not `0`. -/
theorem calculateSlippage_zero_size_not_zero :
    (calculateSlippage ⟨"X", [], [⟨10, 1⟩], 0⟩ 0 true).wouldExecute = true ∧
    (calculateSlippage ⟨"X", [], [⟨10, 1⟩], 0⟩ 0 true).slippagePercent ≠
      JsNum.num 0 := by
  constructor
  · norm_num [calculateSlippage, sortLevels, List.insertionSort,
      List.orderedInsert, walkLevels, slipPercentOf]
  · have h : (calculateSlippage ⟨"X", [], [⟨10, 1⟩], 0⟩ 0 true).slippagePercent
        = JsNum.nan := by
      norm_num [calculateSlippage, sortLevels, List.insertionSort,
        List.orderedInsert, walkLevels, slipPercentOf]
    rw [h]
    decide

/-- Witness for `calculateSlippage_boundary`: both halves at a concrete
one-level book. -/
theorem calculateSlippage_boundary_witness :
    ((calculateSlippage ⟨"X", [], [⟨10, 1⟩], 0⟩ 0 true).wouldExecute = true ∧
      (calculateSlippage ⟨"X", [], [⟨10, 1⟩], 0⟩ 0 true).slippagePercent =
        .nan) ∧
    ((calculateSlippage ⟨"X", [], [⟨10, 1⟩], 0⟩ 2 true).wouldExecute =
        false ∧
      (calculateSlippage ⟨"X", [], [⟨10, 1⟩], 0⟩ 2 true).slippagePercent =
        .num 100) :=
  ⟨(calculateSlippage_boundary ⟨"X", [], [⟨10, 1⟩], 0⟩ 0 true).1
      (by norm_num) rfl,
    (calculateSlippage_boundary ⟨"X", [], [⟨10, 1⟩], 0⟩ 2 true).2
      (by norm_num) (by norm_num)⟩

/-- When the level prices are pairwise distinct, sorting by price priority
is insensitive to the input order. -/
theorem sortLevels_eq_of_perm (isBuy : Bool) (l1 l2 : List Level)
    (hp : List.Perm l1 l2)
    (hd : l1.Pairwise (fun a b => a.px ≠ b.px)) :
    sortLevels isBuy l1 = sortLevels isBuy l2 := by
  cases isBuy with
  | true =>
    haveI : IsTotal Level (fun a b => a.px ≤ b.px) :=
      ⟨fun a b => le_total a.px b.px⟩
    haveI : IsTrans Level (fun a b => a.px ≤ b.px) :=
      ⟨fun _ _ _ h h' => h.trans h'⟩
    haveI : IsAntisymm Level (fun a b => a.px < b.px) :=
      ⟨fun _ _ h1 h2 => absurd h1 (lt_asymm h2)⟩
    have hp1 := List.perm_insertionSort (fun a b : Level => a.px ≤ b.px) l1
    have hp2 := List.perm_insertionSort (fun a b : Level => a.px ≤ b.px) l2
    have hs1 := List.sorted_insertionSort (fun a b : Level => a.px ≤ b.px) l1
    have hs2 := List.sorted_insertionSort (fun a b : Level => a.px ≤ b.px) l2
    have hsym : ∀ {x y : Level}, x.px ≠ y.px → y.px ≠ x.px :=
      fun h => h.symm
    have hd1 := (hp1.pairwise_iff hsym).mpr hd
    have hdl2 : l2.Pairwise (fun a b : Level => a.px ≠ b.px) :=
      (hp.pairwise_iff hsym).mp hd
    have hd2 := (hp2.pairwise_iff hsym).mpr hdl2
    have hstrict1 : (List.insertionSort (fun a b : Level => a.px ≤ b.px)
        l1).Pairwise (fun a b => a.px < b.px) :=
      (hs1.and hd1).imp (fun h => lt_of_le_of_ne h.1 h.2)
    have hstrict2 : (List.insertionSort (fun a b : Level => a.px ≤ b.px)
        l2).Pairwise (fun a b => a.px < b.px) :=
      (hs2.and hd2).imp (fun h => lt_of_le_of_ne h.1 h.2)
    exact List.eq_of_perm_of_sorted (hp1.trans (hp.trans hp2.symm)) hstrict1
      hstrict2
  | false =>
    haveI : IsTotal Level (fun a b => b.px ≤ a.px) :=
      ⟨fun a b => le_total b.px a.px⟩
    haveI : IsTrans Level (fun a b => b.px ≤ a.px) :=
      ⟨fun _ _ _ h h' => h'.trans h⟩
    haveI : IsAntisymm Level (fun a b => b.px < a.px) :=
      ⟨fun _ _ h1 h2 => absurd h1 (lt_asymm h2)⟩
    have hp1 := List.perm_insertionSort (fun a b : Level => b.px ≤ a.px) l1
    have hp2 := List.perm_insertionSort (fun a b : Level => b.px ≤ a.px) l2
    have hs1 := List.sorted_insertionSort (fun a b : Level => b.px ≤ a.px) l1
    have hs2 := List.sorted_insertionSort (fun a b : Level => b.px ≤ a.px) l2
    have hsym : ∀ {x y : Level}, x.px ≠ y.px → y.px ≠ x.px :=
      fun h => h.symm
    have hd1 := (hp1.pairwise_iff hsym).mpr hd
    have hdl2 : l2.Pairwise (fun a b : Level => a.px ≠ b.px) :=
      (hp.pairwise_iff hsym).mp hd
    have hd2 := (hp2.pairwise_iff hsym).mpr hdl2
    have hstrict1 : (List.insertionSort (fun a b : Level => b.px ≤ a.px)
        l1).Pairwise (fun a b => b.px < a.px) :=
      (hs1.and hd1).imp (fun h => lt_of_le_of_ne h.1 (Ne.symm h.2))
    have hstrict2 : (List.insertionSort (fun a b : Level => b.px ≤ a.px)
        l2).Pairwise (fun a b => b.px < a.px) :=
      (hs2.and hd2).imp (fun h => lt_of_le_of_ne h.1 (Ne.symm h.2))
    exact List.eq_of_perm_of_sorted (hp1.trans (hp.trans hp2.symm)) hstrict1
      hstrict2

/-- Claim C10 (amended): `calculateSlippage` is insensitive to the
ordering of the order-book levels whenever the opposing side's prices are
pairwise distinct (equal-price levels can change the `depth` count, see
the counterexample). -/
theorem calculateSlippage_perm_invariant (b1 b2 : OrderBook) (size : ℚ)
    (isBuy : Bool) (hbids : List.Perm b1.bids b2.bids)
    (hasks : List.Perm b1.asks b2.asks)
    (hdistinct : (if isBuy then b1.asks else b1.bids).Pairwise
      (fun a b => a.px ≠ b.px)) :
    calculateSlippage b1 size isBuy = calculateSlippage b2 size isBuy := by
  cases isBuy with
  | true =>
    simp only [if_true] at hdistinct
    have heq := sortLevels_eq_of_perm true b1.asks b2.asks hasks hdistinct
    unfold calculateSlippage
    by_cases hx : b1.asks = []
    · have hy : b2.asks = [] := List.Perm.eq_nil (hx ▸ hasks).symm
      simp only [hx, hy, if_true]
    · have hy : b2.asks ≠ [] := fun h =>
        hx (List.Perm.eq_nil (h ▸ hasks))
      simp only [if_true, if_neg hx, if_neg hy, heq]
  | false =>
    simp only [Bool.false_eq_true, if_false] at hdistinct
    have heq := sortLevels_eq_of_perm false b1.bids b2.bids hbids hdistinct
    unfold calculateSlippage
    by_cases hx : b1.bids = []
    · have hy : b2.bids = [] := List.Perm.eq_nil (hx ▸ hbids).symm
      simp only [Bool.false_eq_true, if_false, hx, hy, if_true]
    · have hy : b2.bids ≠ [] := fun h =>
        hx (List.Perm.eq_nil (h ▸ hbids))
      simp only [Bool.false_eq_true, if_false, if_neg hx, if_neg hy, heq]

/-- Claim C10, counterexample to the claim as stated: with two ask levels
at the same price, permuting them changes the `depth` (levels consumed)
field of the result, because the stable sort preserves their relative
order. -/
theorem calculateSlippage_perm_counterexample :
    List.Perm ([⟨10, 1⟩, ⟨10, 5⟩] : List Level) [⟨10, 5⟩, ⟨10, 1⟩] ∧
    calculateSlippage ⟨"X", [], [⟨10, 1⟩, ⟨10, 5⟩], 0⟩ 2 true ≠
      calculateSlippage ⟨"X", [], [⟨10, 5⟩, ⟨10, 1⟩], 0⟩ 2 true := by
  constructor
  · exact List.Perm.swap (⟨10, 5⟩ : Level) ⟨10, 1⟩ []
  · have h1 : (calculateSlippage ⟨"X", [], [⟨10, 1⟩, ⟨10, 5⟩], 0⟩ 2
        true).depth = 2 := by
      norm_num [calculateSlippage, sortLevels, List.insertionSort,
        List.orderedInsert, walkLevels]
      rw [if_neg (List.cons_ne_nil _ _)]
    have h2 : (calculateSlippage ⟨"X", [], [⟨10, 5⟩, ⟨10, 1⟩], 0⟩ 2
        true).depth = 1 := by
      norm_num [calculateSlippage, sortLevels, List.insertionSort,
        List.orderedInsert, walkLevels]
      rw [if_neg (List.cons_ne_nil _ _)]
    intro h
    rw [h, h2] at h1
    exact absurd h1 (by decide)

/-- Witness for `calculateSlippage_perm_invariant` at concrete
distinct-price books. -/
theorem calculateSlippage_perm_invariant_witness :
    calculateSlippage ⟨"X", [], [⟨10, 1⟩, ⟨11, 5⟩], 0⟩ 2 true =
      calculateSlippage ⟨"X", [], [⟨11, 5⟩, ⟨10, 1⟩], 0⟩ 2 true :=
  calculateSlippage_perm_invariant
    (⟨"X", [], [⟨10, 1⟩, ⟨11, 5⟩], 0⟩ : OrderBook)
    (⟨"X", [], [⟨11, 5⟩, ⟨10, 1⟩], 0⟩ : OrderBook) 2 true (List.Perm.refl [])
    (List.Perm.swap (⟨11, 5⟩ : Level) ⟨10, 1⟩ [])
    (by norm_num [List.pairwise_cons])

/-- Claim C7: on the book whose ask side is `[(10.00, 5), (10.50, 5)]`
(with a bid present), a buy of 8 units fills at an average price of
`10.1875` with `1.875%` slippage and `wouldExecute = true`; and
`checkVolumeConstraints` on the same book and size with
`maxSlippagePercent = 1.0` (and the default `maxVolumePercent = 10`)
returns `canHandle = false` with `suggestedMaxVolume = 1 < 8`. -/
theorem orderBook_example_values :
    (calculateSlippage ⟨"X", [⟨99 / 10, 3⟩], [⟨10, 5⟩, ⟨21 / 2, 5⟩], 0⟩ 8
        true).estimatedPrice = JsNum.num (163 / 16) ∧
    (calculateSlippage ⟨"X", [⟨99 / 10, 3⟩], [⟨10, 5⟩, ⟨21 / 2, 5⟩], 0⟩ 8
        true).slippagePercent = JsNum.num (15 / 8) ∧
    (calculateSlippage ⟨"X", [⟨99 / 10, 3⟩], [⟨10, 5⟩, ⟨21 / 2, 5⟩], 0⟩ 8
        true).wouldExecute = true ∧
    (checkVolumeConstraints ⟨"X", [⟨99 / 10, 3⟩], [⟨10, 5⟩, ⟨21 / 2, 5⟩], 0⟩
        8 true 1 10).canHandle = false ∧
    (checkVolumeConstraints ⟨"X", [⟨99 / 10, 3⟩], [⟨10, 5⟩, ⟨21 / 2, 5⟩], 0⟩
        8 true 1 10).suggestedMaxVolume = some 1 ∧ (1 : ℚ) < 8 := by
  have hne : (([⟨10, 5⟩, ⟨21 / 2, 5⟩] : List Level) = []) = False :=
    eq_false (List.cons_ne_nil _ _)
  refine ⟨?_, ?_, ?_, ?_, ?_, by norm_num⟩ <;>
    norm_num [calculateSlippage, checkVolumeConstraints, analyzeMarketDepth,
      volumePercentExceeds, sortLevels, List.insertionSort,
      List.orderedInsert, walkLevels, slipPercentOf, jsDivJ, JsNum.gtQ, hne]

/-- The search `minDecsAux` returns the least exponent in its window that
makes the product an integer. -/
theorem minDecsAux_le (v : ℚ) :
    ∀ (fuel k j : ℕ), k ≤ j → j < k + fuel → (v * 10 ^ j).den = 1 →
      minDecsAux v fuel k ≤ j ∧ (v * 10 ^ minDecsAux v fuel k).den = 1 := by
  intro fuel
  induction fuel with
  | zero => intro k j h1 h2 _; omega
  | succ n ih =>
    intro k j h1 h2 h3
    unfold minDecsAux
    split_ifs with h
    · exact ⟨h1, h⟩
    · have hkj : k ≠ j := fun he => h (he ▸ h3)
      exact ih (k + 1) j (by omega) (by omega) h3

/-- An integer times a power of ten is an integer. -/
theorem den_one_mul_pow (x : ℚ) (n : ℕ) (h : x.den = 1) :
    (x * 10 ^ n).den = 1 := by
  have hx : x = (x.num : ℚ) := by
    conv_lhs => rw [← Rat.num_div_den x]
    rw [h]
    simp
  rw [hx]
  have : ((x.num : ℚ)) * 10 ^ n = ((x.num * 10 ^ n : ℤ) : ℚ) := by push_cast; ring
  rw [this, Rat.den_intCast]

/-- Integrality at exponent `m` persists at any larger exponent. -/
theorem den_one_mul_pow_add (x : ℚ) (m n : ℕ) (h : (x * 10 ^ m).den = 1) :
    (x * 10 ^ (m + n)).den = 1 := by
  have := den_one_mul_pow (x * 10 ^ m) n h
  rwa [mul_assoc, ← pow_add] at this

/-- For a finite decimal, `minDecs` indeed reaches an integer, within
`v.den` steps. -/
theorem minDecs_spec (v : ℚ) (hv : IsDecimal v) :
    (v * 10 ^ minDecs v).den = 1 ∧ minDecs v ≤ v.den := by
  have h := minDecsAux_le v (v.den + 1) 0 v.den (Nat.zero_le _) (by omega) hv
  exact ⟨h.2, h.1⟩

/-- `minDecs` is minimal: it is below any exponent that makes the product
an integer. -/
theorem minDecs_le (v : ℚ) (hv : IsDecimal v) (m : ℕ)
    (h : (v * 10 ^ m).den = 1) : minDecs v ≤ m := by
  by_cases hc : m ≤ v.den
  · exact (minDecsAux_le v (v.den + 1) 0 m (Nat.zero_le _) (by omega) h).1
  · exact (minDecs_spec v hv).2.trans (by omega)

/-- A divisor of a power of ten divides the power of ten with exponent
itself. -/
theorem dvd_ten_pow_self (d : ℕ) (hd : d ≠ 0) :
    ∀ k : ℕ, d ∣ 10 ^ k → d ∣ 10 ^ d := by
  induction d using Nat.strong_induction_on with
  | _ d ih =>
    intro k hk
    rcases Nat.lt_or_ge d 2 with hlt | hge
    · interval_cases d
      · omega
      · exact one_dvd _
    · have hp : d.minFac.Prime := Nat.minFac_prime (by omega)
      have hpd : d.minFac ∣ d := Nat.minFac_dvd d
      have hp10 : d.minFac ∣ 10 := hp.dvd_of_dvd_pow (hpd.trans hk)
      obtain ⟨d', hd'⟩ := hpd
      have hd'0 : d' ≠ 0 := by rintro rfl; omega
      have hd'lt : d' < d := by
        have h2 : 2 ≤ d.minFac := hp.two_le
        nlinarith [Nat.pos_of_ne_zero hd'0]
      have hd'dvd : d' ∣ 10 ^ k := (Dvd.intro_left _ hd'.symm).trans hk
      have hrec := ih d' hd'lt hd'0 k hd'dvd
      have : d ∣ 10 ^ (d' + 1) := by
        rw [hd', pow_succ, mul_comm (10 ^ d') 10]
        exact mul_dvd_mul hp10 hrec
      exact this.trans (pow_dvd_pow 10 (by omega))

/-- Integrality at any power of ten makes the value a finite decimal. -/
theorem isDecimal_of_mul_pow (x : ℚ) (k : ℕ) (h : (x * 10 ^ k).den = 1) :
    IsDecimal x := by
  have hz : x * 10 ^ k = (((x * 10 ^ k).num : ℤ) : ℚ) := by
    conv_lhs => rw [← Rat.num_div_den (x * 10 ^ k)]
    rw [h]
    simp
  have hxeq : x = (((x * 10 ^ k).num : ℤ) : ℚ) / ((10 ^ k : ℤ) : ℚ) := by
    rw [← hz]
    push_cast
    field_simp
  have hdvd : x.den ∣ 10 ^ k := by
    have := Rat.den_dvd ((x * 10 ^ k).num) (10 ^ k : ℤ)
    rw [Rat.divInt_eq_div] at this
    rw [← hxeq] at this
    exact_mod_cast this
  have hdvd' : x.den ∣ 10 ^ x.den :=
    dvd_ten_pow_self x.den (Rat.den_ne_zero x) k hdvd
  unfold IsDecimal
  have hcast : ((10 ^ x.den / x.den : ℕ) : ℚ) = (10 ^ x.den : ℚ) / x.den := by
    rw [Nat.cast_div hdvd' (by positivity)]
    push_cast
    ring_nf
  have key : x * 10 ^ x.den =
      (x.num : ℚ) * ((10 ^ x.den : ℚ) / (x.den : ℚ)) := by
    rw [show x * (10 : ℚ) ^ x.den =
      ((x.num : ℚ) / (x.den : ℚ)) * 10 ^ x.den from by rw [Rat.num_div_den]]
    ring
  rw [key, ← hcast]
  rw [show (x.num : ℚ) * ((10 ^ x.den / x.den : ℕ) : ℚ) =
      ((x.num * ((10 ^ x.den / x.den : ℕ) : ℤ) : ℤ) : ℚ) from by
    rw [Int.cast_mul, Int.cast_natCast]]
  rw [Rat.den_intCast]

/-- `IsDecimal` holds of every integer. -/
theorem isDecimal_of_den_one (x : ℚ) (h : x.den = 1) : IsDecimal x :=
  isDecimal_of_mul_pow x 0 (by simpa using h)

/-- `toFixed` leaves a value unchanged when it already has at most `m`
decimal places. -/
theorem roundToFixed_eq_self (v : ℚ) (m : ℤ)
    (h : (v * (10 : ℚ) ^ m).den = 1) : roundToFixed v m = v := by
  have h10 : ((10 : ℚ) ^ m) ≠ 0 := by positivity
  have hz : v * (10 : ℚ) ^ m = ((v * (10 : ℚ) ^ m).num : ℚ) := by
    conv_lhs => rw [← Rat.num_div_den (v * (10 : ℚ) ^ m)]
    rw [h]
    simp
  unfold roundToFixed
  rw [hz, Int.floor_int_add]
  norm_num
  rw [← hz]
  exact mul_div_cancel_right₀ v h10

/-- The value returned by `toFixed(m)` has at most `m` decimal places. -/
theorem roundToFixed_den (v : ℚ) (m : ℤ) :
    (roundToFixed v m * (10 : ℚ) ^ m).den = 1 := by
  have h10 : ((10 : ℚ) ^ m) ≠ 0 := by positivity
  unfold roundToFixed
  rw [div_mul_cancel₀ _ h10, Rat.den_intCast]

/-- Rounding a nonnegative value half-up stays nonnegative. -/
theorem roundToFixed_nonneg (v : ℚ) (m : ℤ) (hv : 0 ≤ v) :
    0 ≤ roundToFixed v m := by
  have h10 : (0 : ℚ) < (10 : ℚ) ^ m := by positivity
  unfold roundToFixed
  apply div_nonneg _ h10.le
  have : (0 : ℤ) ≤ ⌊v * (10 : ℚ) ^ m + 1 / 2⌋ := by
    apply Int.floor_nonneg.mpr
    positivity
  exact_mod_cast this

/-- The scaled rounded value is within a half of the scaled input. -/
theorem roundToFixed_scaled_le (v : ℚ) (m : ℤ) :
    roundToFixed v m * (10 : ℚ) ^ m ≤ v * (10 : ℚ) ^ m + 1 / 2 := by
  have h10 : ((10 : ℚ) ^ m) ≠ 0 := by positivity
  unfold roundToFixed
  rw [div_mul_cancel₀ _ h10]
  exact Int.floor_le _

/-- The significant-figure count is at most five exactly when the scaled
canonical value is below `10 ^ 5`. -/
theorem sigFigs_le_iff (v : ℚ) (hv : 0 ≤ v)
    (hden : (v * 10 ^ minDecs v).den = 1) :
    sigFigs v ≤ 5 ↔ v * 10 ^ minDecs v < 10 ^ 5 := by
  set x := (v * 10 ^ minDecs v).num.natAbs with hx
  have hnum : 0 ≤ (v * 10 ^ minDecs v).num := by
    apply Rat.num_nonneg.mpr
    positivity
  have h1 : v * 10 ^ minDecs v = ((v * 10 ^ minDecs v).num : ℚ) := by
    conv_lhs => rw [← Rat.num_div_den (v * 10 ^ minDecs v)]
    rw [hden]
    simp
  have h2 : ((x : ℕ) : ℚ) = ((v * 10 ^ minDecs v).num : ℚ) := by
    rw [hx, Int.cast_natAbs, abs_of_nonneg]
    exact_mod_cast hnum
  have hval : v * 10 ^ minDecs v = (x : ℚ) := h1.trans h2.symm
  rw [hval]
  unfold sigFigs
  rw [← hx]
  constructor
  · intro hlen
    have hlt : x < 10 ^ (Nat.digits 10 x).length :=
      Nat.lt_base_pow_length_digits (by norm_num)
    have : x < 10 ^ 5 :=
      lt_of_lt_of_le hlt (Nat.pow_le_pow_right (by norm_num) hlen)
    exact_mod_cast this
  · intro hlt
    have hlt' : x < 10 ^ 5 := by exact_mod_cast hlt
    by_cases hx0 : x = 0
    · simp [hx0]
    · rw [Nat.digits_len 10 x (by norm_num) hx0]
      have := (Nat.lt_pow_iff_log_lt (by norm_num) hx0).mp hlt'
      omega

/-- Rounding to `m ≥ 0` decimal places keeps a five-significant-figure
value within five significant figures: either nothing changes, or the
scaled result is bounded by `10 ^ 4`. -/
theorem round_keeps_sig (v : ℚ) (hv : 0 ≤ v) (hdec : IsDecimal v)
    (hs : v * 10 ^ minDecs v < 10 ^ 5) (m : ℕ) :
    IsDecimal (roundToFixed v (m : ℤ)) ∧
      minDecs (roundToFixed v (m : ℤ)) ≤ m ∧
      roundToFixed v (m : ℤ) * 10 ^ minDecs (roundToFixed v (m : ℤ)) <
        10 ^ 5 := by
  have hzp : ((10 : ℚ) ^ (m : ℤ)) = 10 ^ m := by
    rw [zpow_natCast]
  have hint : (roundToFixed v (m : ℤ) * 10 ^ m).den = 1 := by
    rw [← hzp]
    exact roundToFixed_den v m
  have hdec' : IsDecimal (roundToFixed v (m : ℤ)) :=
    isDecimal_of_mul_pow _ m hint
  have hmle : minDecs (roundToFixed v (m : ℤ)) ≤ m :=
    minDecs_le _ hdec' m hint
  refine ⟨hdec', hmle, ?_⟩
  by_cases hcase : minDecs v ≤ m
  · have hvm : (v * 10 ^ m).den = 1 := by
      have := den_one_mul_pow_add v (minDecs v) (m - minDecs v)
        (minDecs_spec v hdec).1
      rwa [Nat.add_sub_cancel' hcase] at this
    have heq : roundToFixed v (m : ℤ) = v := by
      apply roundToFixed_eq_self
      rwa [hzp]
    rw [heq]
    exact hs
  · push_neg at hcase
    have h1 : minDecs v - 1 + 1 = minDecs v := by omega
    have hscaled : v * 10 ^ m ≤ v * 10 ^ (minDecs v - 1) := by
      apply mul_le_mul_of_nonneg_left _ hv
      apply pow_le_pow_right₀ (by norm_num)
      omega
    have hsmall : v * 10 ^ (minDecs v - 1) < 10 ^ 4 := by
      have : v * 10 ^ (minDecs v - 1) * 10 = v * 10 ^ minDecs v := by
        rw [mul_assoc, ← pow_succ, h1]
      nlinarith [hs]
    have hfloorle : roundToFixed v (m : ℤ) * 10 ^ m ≤ 10 ^ 4 := by
      have hle := roundToFixed_scaled_le v (m : ℤ)
      rw [hzp] at hle
      have hub : roundToFixed v (m : ℤ) * 10 ^ m < 10 ^ 4 + 1 := by
        calc roundToFixed v (m : ℤ) * 10 ^ m ≤ v * 10 ^ m + 1 / 2 := hle
          _ ≤ v * 10 ^ (minDecs v - 1) + 1 / 2 := by linarith
          _ < 10 ^ 4 + 1 := by linarith
      -- the scaled value is an integer strictly below 10^4 + 1
      have hzint : roundToFixed v (m : ℤ) * 10 ^ m =
          ((roundToFixed v (m : ℤ) * 10 ^ m).num : ℚ) := by
        conv_lhs => rw [← Rat.num_div_den (roundToFixed v (m : ℤ) * 10 ^ m)]
        rw [hint]
        simp
      rw [hzint] at hub ⊢
      have : (roundToFixed v (m : ℤ) * 10 ^ m).num < 10 ^ 4 + 1 := by
        exact_mod_cast hub
      have : (roundToFixed v (m : ℤ) * 10 ^ m).num ≤ 10 ^ 4 := by omega
      exact_mod_cast this
    have hrnn : 0 ≤ roundToFixed v (m : ℤ) := roundToFixed_nonneg v _ hv
    calc roundToFixed v (m : ℤ) * 10 ^ minDecs (roundToFixed v (m : ℤ)) ≤
          roundToFixed v (m : ℤ) * 10 ^ m := by
          apply mul_le_mul_of_nonneg_left _ hrnn
          exact pow_le_pow_right₀ (by norm_num) hmle
      _ ≤ 10 ^ 4 := hfloorle
      _ < 10 ^ 5 := by norm_num

/-- `log10UpAux` never returns less than its start index. -/
theorem log10UpAux_ge (v : ℚ) :
    ∀ fuel k, k ≤ log10UpAux v fuel k := by
  intro fuel
  induction fuel with
  | zero => intro k; exact le_rfl
  | succ n ih =>
    intro k
    unfold log10UpAux
    split_ifs
    · exact le_rfl
    · exact (Nat.le_succ k).trans (ih (k + 1))

/-- Below the index `log10UpAux` returns, the scaled value is below one. -/
theorem log10UpAux_min (v : ℚ) :
    ∀ fuel k j, k ≤ j → j < log10UpAux v fuel k → v * 10 ^ j < 1 := by
  intro fuel
  induction fuel with
  | zero =>
    intro k j h1 h2
    exact absurd (lt_of_le_of_lt h1 h2) (lt_irrefl k)
  | succ n ih =>
    intro k j h1 h2
    unfold log10UpAux at h2
    split_ifs at h2 with h
    · omega
    · rcases Nat.eq_or_lt_of_le h1 with rfl | hlt
      · exact lt_of_not_le h
      · exact ih (k + 1) j hlt h2

/-- The exponent `Math.floor(Math.log10(v))` computes satisfies
`v < 10 ^ (e + 1)` for every positive `v`. -/
theorem jsLog10Floor_ub (v : ℚ) (hv : 0 < v) :
    v < (10 : ℚ) ^ (jsLog10Floor v + 1) := by
  unfold jsLog10Floor
  split_ifs with h1
  · -- 1 ≤ v: the digit length of ⌊v⌋ bounds it
    have hfl : (0 : ℤ) ≤ ⌊v⌋ := Int.floor_nonneg.mpr (by linarith)
    have hlen : (⌊v⌋).toNat < 10 ^ (Nat.digits 10 (⌊v⌋).toNat).length :=
      Nat.lt_base_pow_length_digits (by norm_num)
    have hfl2 : v < (⌊v⌋ : ℚ) + 1 := Int.lt_floor_add_one v
    have hcast : ((⌊v⌋).toNat : ℚ) = ((⌊v⌋ : ℤ) : ℚ) := by
      exact_mod_cast congrArg (fun z : ℤ => (z : ℚ))
        (Int.toNat_of_nonneg hfl)
    have hlenq : ((⌊v⌋ : ℤ) : ℚ) + 1 ≤
        (10 : ℚ) ^ (Nat.digits 10 (⌊v⌋).toNat).length := by
      rw [← hcast]
      have : ((⌊v⌋).toNat : ℚ) + 1 ≤
          ((10 ^ (Nat.digits 10 (⌊v⌋).toNat).length : ℕ) : ℚ) := by
        exact_mod_cast Nat.succ_le_of_lt hlen
      simpa using this
    have hz : ((Nat.digits 10 (⌊v⌋).toNat).length : ℤ) - 1 + 1 =
        ((Nat.digits 10 (⌊v⌋).toNat).length : ℤ) := by ring
    rw [hz, zpow_natCast]
    exact lt_of_lt_of_le hfl2 hlenq
  · -- v < 1: minimality of the search index
    push_neg at h1
    set k := log10UpAux v (v.den + 1) 1 with hk
    have hk1 : 1 ≤ k := log10UpAux_ge v _ 1
    have hz : -(k : ℤ) + 1 = 1 - (k : ℤ) := by ring
    rw [hz]
    rcases Nat.eq_or_lt_of_le hk1 with heq | hlt
    · rw [← heq]
      norm_num
      linarith
    · have hmin : v * 10 ^ (k - 1) < 1 :=
        log10UpAux_min v (v.den + 1) 1 (k - 1) (by omega) (by omega)
    -- v < 10 ^ (1 - k)
      have h10 : (0 : ℚ) < (10 : ℚ) ^ (k - 1 : ℕ) := by positivity
      have hlt2 : v < 1 / 10 ^ (k - 1 : ℕ) := by
        rw [lt_div_iff₀ h10]
        linarith
      have hpow : (1 : ℚ) / 10 ^ (k - 1 : ℕ) = (10 : ℚ) ^ (1 - (k : ℤ)) := by
        rw [one_div, ← zpow_natCast (10 : ℚ) (k - 1), ← zpow_neg]
        congr 1
        omega
      rwa [hpow] at hlt2

/-- The five-significant-figure rounding step: the result is a finite
decimal that is either an integer or has its scaled canonical value below
`10 ^ 5`. -/
theorem roundSig_bound (v : ℚ) (hv : 0 < v) :
    IsDecimal (roundToFixed v (4 - jsLog10Floor v)) ∧
      ((roundToFixed v (4 - jsLog10Floor v)).den = 1 ∨
        roundToFixed v (4 - jsLog10Floor v) *
          10 ^ minDecs (roundToFixed v (4 - jsLog10Floor v)) < 10 ^ 5) := by
  set e := jsLog10Floor v with he
  set r := roundToFixed v (4 - e) with hr
  have hub : v < (10 : ℚ) ^ (e + 1) := jsLog10Floor_ub v hv
  have h10e : (0 : ℚ) < (10 : ℚ) ^ (4 - e) := by positivity
  have hscaled : v * (10 : ℚ) ^ (4 - e) < 10 ^ 5 := by
    have h5 : (10 : ℚ) ^ (e + 1) * (10 : ℚ) ^ (4 - e) = 10 ^ (5 : ℤ) := by
      rw [← zpow_add₀ (by norm_num : (10 : ℚ) ≠ 0)]
      congr 1
      ring
    calc v * (10 : ℚ) ^ (4 - e) < (10 : ℚ) ^ (e + 1) * (10 : ℚ) ^ (4 - e) :=
          mul_lt_mul_of_pos_right hub h10e
      _ = 10 ^ (5 : ℤ) := h5
      _ = 10 ^ 5 := by norm_num
  have hint0 : (r * (10 : ℚ) ^ (4 - e)).den = 1 := by
    rw [hr]; exact roundToFixed_den v (4 - e)
  have hNle : r * (10 : ℚ) ^ (4 - e) ≤ 10 ^ 5 := by
    have hle := roundToFixed_scaled_le v (4 - e)
    have hub2 : r * (10 : ℚ) ^ (4 - e) < 10 ^ 5 + 1 := by
      rw [hr]
      calc roundToFixed v (4 - e) * (10 : ℚ) ^ (4 - e) ≤
            v * (10 : ℚ) ^ (4 - e) + 1 / 2 := hle
        _ < 10 ^ 5 + 1 := by linarith
    have hzint : r * (10 : ℚ) ^ (4 - e) =
        ((r * (10 : ℚ) ^ (4 - e)).num : ℚ) := by
      conv_lhs => rw [← Rat.num_div_den (r * (10 : ℚ) ^ (4 - e))]
      rw [hint0]
      simp
    rw [hzint] at hub2 ⊢
    have h1 : (r * (10 : ℚ) ^ (4 - e)).num < 10 ^ 5 + 1 := by
      exact_mod_cast hub2
    have h2 : (r * (10 : ℚ) ^ (4 - e)).num ≤ 10 ^ 5 := by omega
    exact_mod_cast h2
  have hrnn : 0 ≤ r := by
    rw [hr]; exact roundToFixed_nonneg v _ hv.le
  by_cases hsign : 0 ≤ 4 - e
  · -- nonnegative exponent: reduce the zpow to a natural power
    set t := (4 - e).toNat with ht
    have htz : ((t : ℕ) : ℤ) = 4 - e := Int.toNat_of_nonneg hsign
    have hintt : (r * 10 ^ t).den = 1 := by
      have := hint0
      rwa [← htz, zpow_natCast] at this
    have hdect : IsDecimal r := isDecimal_of_mul_pow r t hintt
    refine ⟨hdect, ?_⟩
    by_cases hden : r.den = 1
    · exact Or.inl hden
    · right
      have hmle : minDecs r ≤ t := minDecs_le r hdect t hintt
      have hNle' : r * 10 ^ t ≤ 10 ^ 5 := by
        have := hNle
        rwa [← htz, zpow_natCast] at this
      rcases lt_or_eq_of_le hNle' with hstrict | heq'
      · calc r * 10 ^ minDecs r ≤ r * 10 ^ t := by
              apply mul_le_mul_of_nonneg_left _ hrnn
              exact pow_le_pow_right₀ (by norm_num) hmle
          _ < 10 ^ 5 := hstrict
      · by_cases ht5 : t ≤ 5
        · -- r = 10 ^ (5 - t) would be an integer, contradicting hden
          exfalso
          apply hden
          have h10t : ((10 : ℚ) ^ t) ≠ 0 := by positivity
          have hreq : r = (10 : ℚ) ^ (5 - t : ℕ) := by
            have hpow : (10 : ℚ) ^ (5 - t : ℕ) * 10 ^ t = 10 ^ 5 := by
              rw [← pow_add]
              congr 1
              omega
            apply mul_right_cancel₀ h10t
            rw [heq', ← hpow]
          rw [hreq]
          rw [show (10 : ℚ) ^ (5 - t : ℕ) =
            ((10 ^ (5 - t : ℕ) : ℤ) : ℚ) from by push_cast; ring]
          exact Rat.den_intCast _
        · -- t > 5: the scaled value at t - 5 is exactly one
          push_neg at ht5
          have h105 : ((10 : ℚ) ^ (5 : ℕ)) ≠ 0 := by positivity
          have hval1 : r * 10 ^ (t - 5 : ℕ) = 1 := by
            have hpow : (10 : ℚ) ^ (t - 5 : ℕ) * 10 ^ (5 : ℕ) = 10 ^ t := by
              rw [← pow_add]
              congr 1
              omega
            apply mul_right_cancel₀ h105
            rw [mul_assoc, hpow, one_mul]
            exact heq'
          have hint2 : (r * 10 ^ (t - 5 : ℕ)).den = 1 := by
            rw [hval1]
            norm_num
          have hmle2 : minDecs r ≤ t - 5 :=
            minDecs_le r hdect (t - 5) hint2
          calc r * 10 ^ minDecs r ≤ r * 10 ^ (t - 5 : ℕ) := by
                apply mul_le_mul_of_nonneg_left _ hrnn
                exact pow_le_pow_right₀ (by norm_num) hmle2
            _ = 1 := hval1
            _ < 10 ^ 5 := by norm_num
  · -- negative exponent: the rounded value is itself an integer
    push_neg at hsign
    set u := (e - 4).toNat with hu
    have huz : ((u : ℕ) : ℤ) = e - 4 := by
      rw [hu]
      exact Int.toNat_of_nonneg (by omega)
    have hrint : r.den = 1 := by
      have hzp : (10 : ℚ) ^ (4 - e) = 1 / (10 : ℚ) ^ (u : ℕ) := by
        rw [one_div, ← zpow_natCast (10 : ℚ) u, ← zpow_neg]
        congr 1
        omega
      have hN : r = ((r * (10 : ℚ) ^ (4 - e)).num : ℚ) * 10 ^ (u : ℕ) := by
        have hzint : r * (10 : ℚ) ^ (4 - e) =
            ((r * (10 : ℚ) ^ (4 - e)).num : ℚ) := by
          conv_lhs => rw [← Rat.num_div_den (r * (10 : ℚ) ^ (4 - e))]
          rw [hint0]
          simp
        have h10u : ((10 : ℚ) ^ (u : ℕ)) ≠ 0 := by positivity
        rw [← hzint, hzp]
        field_simp
      rw [hN]
      rw [show ((r * (10 : ℚ) ^ (4 - e)).num : ℚ) * 10 ^ (u : ℕ) =
        (((r * (10 : ℚ) ^ (4 - e)).num * 10 ^ (u : ℕ) : ℤ) : ℚ) from by
        push_cast; ring]
      exact Rat.den_intCast _
    exact ⟨isDecimal_of_den_one r hrint, Or.inl hrint⟩

/-- The price formatter round-trips through the validator: every positive
finite-decimal price, formatted under a legal precision configuration,
re-validates. -/
theorem validateFormat_ok (price : ℚ) (szDecimals : ℕ) (isSpot : Bool)
    (hpos : 0 < price) (hdec : IsDecimal price)
    (hsz : szDecimals ≤ maxDecimalsFor isSpot) :
    validateHyperliquidPrice (formatHyperliquidPrice price szDecimals isSpot)
      szDecimals isSpot = true := by
  set m : ℤ := (maxDecimalsFor isSpot : ℤ) - szDecimals with hm
  have hm0 : 0 ≤ m := by
    rw [hm]
    omega
  set mn := m.toNat with hmn
  have hmnz : ((mn : ℕ) : ℤ) = m := Int.toNat_of_nonneg hm0
  unfold formatHyperliquidPrice
  rw [← hm]
  split_ifs with hden0 hsig
  · -- integer prices pass through and validate as integers
    unfold validateHyperliquidPrice
    simp [hden0]
  · -- at most five significant figures: one decimal-place rounding
    have hsval : price * 10 ^ minDecs price < 10 ^ 5 :=
      (sigFigs_le_iff price hpos.le (minDecs_spec price hdec).1).mp hsig
    have hkeep := round_keeps_sig price hpos.le hdec hsval mn
    rw [hmnz] at hkeep
    obtain ⟨hdec', hmle, hsval'⟩ := hkeep
    unfold validateHyperliquidPrice
    rw [← hm]
    simp only
    split_ifs with h1 h2 h3
    · rfl
    · exfalso
      omega
    · exfalso
      have hnn : 0 ≤ roundToFixed price m :=
        roundToFixed_nonneg price m hpos.le
      have := (sigFigs_le_iff (roundToFixed price m) hnn
        (minDecs_spec _ hdec').1).mpr hsval'
      omega
    · rfl
  · -- more than five significant figures: round to five first
    rw [abs_of_pos hpos]
    obtain ⟨hdecR, hcases⟩ := roundSig_bound price hpos
    set rounded := roundToFixed price (4 - jsLog10Floor price) with hrd
    have hrnn : 0 ≤ rounded := roundToFixed_nonneg price _ hpos.le
    show validateHyperliquidPrice
      ⟨roundToFixed rounded m, minDecs (roundToFixed rounded m)⟩
      szDecimals isSpot = true
    rcases hcases with hint | hsval
    · -- the rounded price is an integer: the final rounding is the identity
      have hfin : roundToFixed rounded m = rounded := by
        apply roundToFixed_eq_self
        have h1 : (rounded * 10 ^ mn).den = 1 := den_one_mul_pow _ _ hint
        rwa [← zpow_natCast (10 : ℚ) mn, hmnz] at h1
      rw [hfin]
      unfold validateHyperliquidPrice
      simp [hint]
    · -- the rounded price keeps at most five significant figures
      have hkeep := round_keeps_sig rounded hrnn hdecR hsval mn
      rw [hmnz] at hkeep
      obtain ⟨hdec', hmle, hsval'⟩ := hkeep
      unfold validateHyperliquidPrice
      rw [← hm]
      simp only
      split_ifs with h1 h2 h3
      · rfl
      · exfalso
        omega
      · exfalso
        have hnn : 0 ≤ roundToFixed rounded m :=
          roundToFixed_nonneg rounded m hrnn
        have := (sigFigs_le_iff (roundToFixed rounded m) hnn
          (minDecs_spec _ hdec').1).mpr hsval'
        omega
      · rfl

/-- Claim C8: for every finite positive decimal price and every legal
precision configuration (`szDecimals ≤ maxDecimals`, spot or perp), the
string produced by `formatHyperliquidPrice` passes
`validateHyperliquidPrice` under the same configuration. -/
theorem format_validate_roundTrip (price : ℚ) (szDecimals : ℕ)
    (isSpot : Bool) (hpos : 0 < price) (hdec : IsDecimal price)
    (hsz : szDecimals ≤ maxDecimalsFor isSpot) :
    validateHyperliquidPrice (formatHyperliquidPrice price szDecimals isSpot)
      szDecimals isSpot = true :=
  validateFormat_ok price szDecimals isSpot hpos hdec hsz

/-- Witness for `format_validate_roundTrip` at the concrete price `5/2`
with two size decimals on a perp. -/
theorem format_validate_roundTrip_witness :
    validateHyperliquidPrice (formatHyperliquidPrice (5 / 2) 2 false) 2 false
      = true :=
  format_validate_roundTrip (5 / 2) 2 false (by norm_num)
    (by unfold IsDecimal; norm_num) (by norm_num [maxDecimalsFor])

/-- Each loop iteration appends exactly one slice result: the pipeline's
outcome, or the `handleOrderError` stub if the pipeline threw. -/
theorem execStep_results (config : VWAPEnhancedConfig) (mi : MarketInfo)
    (vwapData : VWAPData) (base : ℚ) (envs : ℕ → OrderEnv) (s : ExecState)
    (i : ℕ) :
    (execStep config mi vwapData base envs s i).results =
      s.results ++ [sliceResultOf config mi vwapData base envs i] := by
  unfold execStep sliceResultOf
  cases h : executeOrder config mi vwapData base (i + 1) (envs i) with
  | none => simp
  | some r =>
    dsimp only
    split_ifs <;> simp

/-- The slice loop appends one result per index, in order. -/
theorem execLoop_results (config : VWAPEnhancedConfig) (mi : MarketInfo)
    (vwapData : VWAPData) (base : ℚ) (envs : ℕ → OrderEnv) :
    ∀ (is : List ℕ) (s : ExecState),
      (execLoop config mi vwapData base envs is s).results =
        s.results ++ is.map (sliceResultOf config mi vwapData base envs) := by
  intro is
  induction is with
  | nil => intro s; simp [execLoop]
  | cons i rest ih =>
    intro s
    unfold execLoop
    rw [ih, execStep_results]
    simp

/-- A validly configured run reduces to the slice loop with status
`completed`. -/
theorem execute_valid_eq (config : VWAPEnhancedConfig)
    (candles : List CandleData) (raw : MarketInfoRaw) (envs : ℕ → OrderEnv)
    (hasset : config.asset ≠ "") (hts : 0 < config.totalSize)
    (hto : config.totalOrders ≠ 0) :
    execute config candles true (some raw) envs =
      (ExecutionStatus.completed,
        execLoop config ⟨raw.index.getD 0, raw.szDecimals.getD 4⟩
          (initializeVWAP candles) (config.totalSize / config.totalOrders)
          envs (List.range config.totalOrders) initialExecState) := by
  unfold execute
  have h1 : ¬(config.asset = "" ∨ config.totalSize ≤ 0 ∨
      config.totalOrders = 0) := by
    push_neg
    exact ⟨hasset, hts, hto⟩
  have h2 : ¬(true = false) := by simp
  rw [if_neg h1, if_neg h2]

/-- Claim C9: a per-slice exception (price fetch, validation or
submission throw) never terminates the run — every slice yields exactly
one recorded result, a throwing slice is recorded as failed, and the run
completes; only configuration-time validation, credential, or metadata
failures end the run with status `failed`, before any slice runs. -/
theorem execute_error_containment (config : VWAPEnhancedConfig)
    (candles : List CandleData) (privateKeyValid : Bool)
    (marketInfoRaw : Option MarketInfoRaw) (envs : ℕ → OrderEnv) :
    ((config.asset ≠ "" ∧ 0 < config.totalSize ∧ config.totalOrders ≠ 0 ∧
        privateKeyValid = true ∧ marketInfoRaw.isSome) →
      (execute config candles privateKeyValid marketInfoRaw envs).1 =
          ExecutionStatus.completed ∧
      (execute config candles privateKeyValid marketInfoRaw
          envs).2.results.length = config.totalOrders ∧
      (∀ i, i < config.totalOrders → (envs i).priceResult = none →
        ((execute config candles privateKeyValid marketInfoRaw
            envs).2.results.getD i (failedOrderResult 0)).success = false)) ∧
    ((config.asset = "" ∨ config.totalSize ≤ 0 ∨ config.totalOrders = 0 ∨
        privateKeyValid = false ∨ marketInfoRaw = none) →
      (execute config candles privateKeyValid marketInfoRaw envs).1 =
          ExecutionStatus.failed ∧
      (execute config candles privateKeyValid marketInfoRaw envs).2.results
        = []) := by
  constructor
  · rintro ⟨hasset, hts, hto, rfl, hsome⟩
    obtain ⟨raw, rfl⟩ := Option.isSome_iff_exists.mp hsome
    rw [execute_valid_eq config candles raw envs hasset hts hto]
    simp only
    rw [execLoop_results]
    refine ⟨by trivial, by simp [initialExecState], ?_⟩
    intro i hi hthrow
    have hget : ((List.range config.totalOrders).map
        (sliceResultOf config ⟨raw.index.getD 0, raw.szDecimals.getD 4⟩
          (initializeVWAP candles) (config.totalSize / config.totalOrders)
          envs)).getD i (failedOrderResult 0) =
        sliceResultOf config ⟨raw.index.getD 0, raw.szDecimals.getD 4⟩
          (initializeVWAP candles) (config.totalSize / config.totalOrders)
          envs i := by
      rw [List.getD_eq_getElem?_getD, List.getElem?_map,
        List.getElem?_range hi]
      rfl
    simp only [initialExecState, List.nil_append]
    rw [hget]
    unfold sliceResultOf executeOrder
    rw [hthrow]
    rfl
  · intro hbad
    unfold execute
    split_ifs with h1 h2
    · exact ⟨rfl, rfl⟩
    · exact ⟨rfl, rfl⟩
    · have hnone : marketInfoRaw = none := by
        rcases hbad with h | h | h | h | h
        · exact absurd (Or.inl h) h1
        · exact absurd (Or.inr (Or.inl h)) h1
        · exact absurd (Or.inr (Or.inr h)) h1
        · exact absurd h h2
        · exact h
      subst hnone
      exact ⟨rfl, rfl⟩

/-- Witness for `execute_error_containment`: a two-slice run whose every
slice throws on the price fetch still completes with two recorded
results. -/
theorem execute_error_containment_witness :
    (execute ⟨10, 2, 1, 1, 1, 2, 1 / 2, 0, "X", Side.buy⟩ [] true
        (some ⟨some 0, some 1⟩) (fun _ => ⟨none, none⟩)).1 =
      ExecutionStatus.completed ∧
    (execute ⟨10, 2, 1, 1, 1, 2, 1 / 2, 0, "X", Side.buy⟩ [] true
        (some ⟨some 0, some 1⟩) (fun _ => ⟨none, none⟩)).2.results.length
      = 2 := by
  have h := (execute_error_containment ⟨10, 2, 1, 1, 1, 2, 1 / 2, 0, "X",
    Side.buy⟩ [] true (some ⟨some 0, some 1⟩) (fun _ => ⟨none, none⟩)).1
    ⟨by decide, by norm_num, by decide, rfl, rfl⟩
  exact ⟨h.1, h.2.1⟩

/-- Claim C1, counterexample: a live two-slice run in which every
submission succeeds but the fetched price sits below the VWAP, so the
multiplier `1.5` scales every slice; the executed sizes sum to `15`, not
the configured `totalQuantity = 10`.  The live executor computes the base
size once as `totalSize / totalOrders` and never recomputes it against
the remaining quantity. -/
theorem execute_sum_executed_ne_totalSize :
    (∀ r ∈ (execute ⟨10, 2, 1, 1, 1, 2, 1 / 2, 0, "X", Side.buy⟩
        [⟨2000, 2000, 2000, 1, 0⟩] true (some ⟨some 0, some 1⟩)
        (fun _ => ⟨some 1000, some ⟨true, none⟩⟩)).2.results,
      r.success = true) ∧
    ((execute ⟨10, 2, 1, 1, 1, 2, 1 / 2, 0, "X", Side.buy⟩
        [⟨2000, 2000, 2000, 1, 0⟩] true (some ⟨some 0, some 1⟩)
        (fun _ => ⟨some 1000, some ⟨true, none⟩⟩)).2.results.map
          (·.size)).sum = 15 ∧
    (15 : ℚ) ≠ (⟨10, 2, 1, 1, 1, 2, 1 / 2, 0, "X", Side.buy⟩ :
      VWAPEnhancedConfig).totalSize := by
  have hvwap : initializeVWAP [⟨2000, 2000, 2000, 1, 0⟩] = ⟨2000, 2000, 1⟩ := by
    norm_num [initializeVWAP, vwapFold, isValidCandle, hlc3]
  have hord : ∀ n : ℕ,
      executeOrder ⟨10, 2, 1, 1, 1, 2, 1 / 2, 0, "X", Side.buy⟩ ⟨0, 1⟩
        ⟨2000, 2000, 1⟩ 5 n ⟨some 1000, some ⟨true, none⟩⟩ =
        some ⟨n, true, none, 15 / 2, 1001, 3 / 2⟩ := by
    intro n
    unfold executeOrder
    norm_num [calculateVWAPOrderSize, roundOrderSizeForAsset, jsRound,
      formatHyperliquidPrice, validateHyperliquidPrice, maxDecimalsFor]
  have hres : (execute ⟨10, 2, 1, 1, 1, 2, 1 / 2, 0, "X", Side.buy⟩
      [⟨2000, 2000, 2000, 1, 0⟩] true (some ⟨some 0, some 1⟩)
      (fun _ => ⟨some 1000, some ⟨true, none⟩⟩)).2.results =
      [⟨1, true, none, 15 / 2, 1001, 3 / 2⟩,
        ⟨2, true, none, 15 / 2, 1001, 3 / 2⟩] := by
    rw [execute_valid_eq _ _ _ _ (by decide) (by norm_num) (by decide)]
    dsimp only
    rw [execLoop_results]
    have hbase : (⟨10, 2, 1, 1, 1, 2, 1 / 2, 0, "X", Side.buy⟩ :
        VWAPEnhancedConfig).totalSize /
        ((⟨10, 2, 1, 1, 1, 2, 1 / 2, 0, "X", Side.buy⟩ :
          VWAPEnhancedConfig).totalOrders : ℚ) = 5 := by
      norm_num
    rw [show List.range 2 = [0, 1] from rfl]
    simp only [List.map_cons, List.map_nil, initialExecState,
      List.nil_append]
    rw [show (⟨(some 0).getD 0, (some 1).getD 4⟩ : MarketInfo) = ⟨0, 1⟩
      from rfl]
    unfold sliceResultOf
    rw [hvwap, hbase, hord 1, hord 2]
    rfl
  rw [hres]
  refine ⟨?_, by norm_num, by norm_num⟩
  intro r hr
  simp only [List.mem_cons, List.not_mem_nil, or_false] at hr
  rcases hr with rfl | rfl <;> rfl

/-- An integer times an integer constant is an integer. -/
theorem den_one_mul_intCast (x : ℚ) (z : ℤ) (h : x.den = 1) :
    (x * (z : ℚ)).den = 1 := by
  have hx : x = (x.num : ℚ) := by
    conv_lhs => rw [← Rat.num_div_den x]
    rw [h]
    simp
  rw [hx]
  rw [show ((x.num : ℚ)) * (z : ℚ) = ((x.num * z : ℤ) : ℚ) from by
    push_cast; ring]
  exact Rat.den_intCast _

/-- Rounding a size already expressed at the asset's precision is the
identity. -/
theorem roundOrderSizeForAsset_exact (size : ℚ) (d : ℕ)
    (h : (size * 10 ^ d).den = 1) :
    roundOrderSizeForAsset size d = size := by
  unfold roundOrderSizeForAsset jsRound
  split_ifs with hd
  · subst hd
    have h0 : size.den = 1 := by simpa using h
    have hz : size = (size.num : ℚ) := by
      conv_lhs => rw [← Rat.num_div_den size]
      rw [h0]
      simp
    rw [hz, Int.floor_int_add]
    norm_num
  · have := roundToFixed_eq_self size (d : ℤ) (by rwa [zpow_natCast])
    unfold roundToFixed at this
    rwa [zpow_natCast] at this

/-- A price with a finite decimal form stays a finite decimal after the
slippage buffer and safety clamp (multiplication by `c / 1000` for an
integer `c`). -/
theorem isDecimal_mul_thousandth (w : ℚ) (c : ℤ) (hw : IsDecimal w) :
    IsDecimal (w * ((c : ℚ) / 1000)) := by
  apply isDecimal_of_mul_pow _ (minDecs w + 3)
  have hbase : (w * 10 ^ minDecs w).den = 1 := (minDecs_spec w hw).1
  have hval : w * ((c : ℚ) / 1000) * 10 ^ (minDecs w + 3) =
      w * 10 ^ minDecs w * (c : ℚ) := by
    rw [pow_add]
    norm_num
    ring
  rw [hval]
  exact den_one_mul_intCast _ c hbase

/-- Under the amended C1 hypotheses — the fetched price equals the VWAP
reference, sane multiplier bounds, a base size exact at the instrument's
precision, a decimal VWAP, and a successful submission — one slice's
pipeline succeeds and executes exactly the base size. -/
theorem executeOrder_at_vwap (config : VWAPEnhancedConfig)
    (mi : MarketInfo) (vwapData : VWAPData) (base : ℚ) (n : ℕ)
    (env : OrderEnv) (oid : Option String)
    (hprice : env.priceResult = some vwapData.vwap)
    (hplace : env.placeResult = some ⟨true, oid⟩)
    (hb : 0 < base) (hw : 0 < vwapData.vwap)
    (hdecw : IsDecimal vwapData.vwap) (hd6 : mi.assetDecimals ≤ 6)
    (hmin : config.minMultiplier ≤ 1) (hmax : 1 ≤ config.maxMultiplier)
    (hbd : (base * 10 ^ mi.assetDecimals).den = 1) :
    ∃ r, executeOrder config mi vwapData base n env = some r ∧
      r.success = true ∧ r.size = base ∧ r.vwapMultiplier = 1 := by
  unfold executeOrder
  rw [hprice]
  have hsz : calculateVWAPOrderSize base vwapData.vwap vwapData.vwap
      config.vwapAlpha config.maxMultiplier config.minMultiplier =
      ⟨base, base, 1, 0⟩ := by
    unfold calculateVWAPOrderSize
    rw [if_neg]
    · have hdev : (vwapData.vwap - vwapData.vwap) / vwapData.vwap = 0 := by
        rw [sub_self, zero_div]
      rw [hdev]
      simp [min_eq_right hmax, max_eq_right hmin]
    · push_neg
      refine ⟨ne_of_gt hb, ne_of_gt hw, ne_of_gt hw, hw, hw⟩
  have horder : (if config.side = Side.buy
      then vwapData.vwap * (1 + 1 / 1000)
      else vwapData.vwap * (1 - 1 / 1000)) =
      vwapData.vwap *
        ((((if config.side = Side.buy then (1001 : ℤ) else (999 : ℤ)) : ℤ) :
          ℚ) / 1000) := by
    split_ifs <;> push_cast <;> ring
  have hconstr : max (vwapData.vwap * (1 - 3 / 4))
      (min (vwapData.vwap * (1 + 3 / 4))
        (if config.side = Side.buy then vwapData.vwap * (1 + 1 / 1000)
         else vwapData.vwap * (1 - 1 / 1000))) =
      (if config.side = Side.buy then vwapData.vwap * (1 + 1 / 1000)
       else vwapData.vwap * (1 - 1 / 1000)) := by
    split_ifs with hside
    · rw [min_eq_right (by nlinarith), max_eq_right (by nlinarith)]
    · rw [min_eq_right (by nlinarith), max_eq_right (by nlinarith)]
  have hpos : (0 : ℚ) < (if config.side = Side.buy
      then vwapData.vwap * (1 + 1 / 1000)
      else vwapData.vwap * (1 - 1 / 1000)) := by
    split_ifs <;> nlinarith
  have hdec : IsDecimal (if config.side = Side.buy
      then vwapData.vwap * (1 + 1 / 1000)
      else vwapData.vwap * (1 - 1 / 1000)) := by
    rw [horder]
    exact isDecimal_mul_thousandth vwapData.vwap _ hdecw
  have hvalid : validateHyperliquidPrice
      (formatHyperliquidPrice
        (max (vwapData.vwap * (1 - 3 / 4))
          (min (vwapData.vwap * (1 + 3 / 4))
            (if config.side = Side.buy then vwapData.vwap * (1 + 1 / 1000)
             else vwapData.vwap * (1 - 1 / 1000))))
        mi.assetDecimals false)
      mi.assetDecimals false = true := by
    rw [hconstr]
    exact validateFormat_ok _ mi.assetDecimals false hpos hdec
      (by simpa [maxDecimalsFor] using hd6)
  dsimp only
  rw [hsz]
  dsimp only
  rw [roundOrderSizeForAsset_exact base _ hbd, if_pos hvalid, hplace]
  exact ⟨_, rfl, rfl, rfl, rfl⟩

/-- The slice recorded at a valid run's index `i` is the `i`-th pipeline
outcome. -/
theorem execute_results_getD (config : VWAPEnhancedConfig)
    (candles : List CandleData) (raw : MarketInfoRaw) (envs : ℕ → OrderEnv)
    (hasset : config.asset ≠ "") (hts : 0 < config.totalSize)
    (hto : config.totalOrders ≠ 0) (i : ℕ) (hi : i < config.totalOrders) :
    (execute config candles true (some raw) envs).2.results.getD i
      (failedOrderResult 0) =
      sliceResultOf config ⟨raw.index.getD 0, raw.szDecimals.getD 4⟩
        (initializeVWAP candles) (config.totalSize / config.totalOrders)
        envs i := by
  rw [execute_valid_eq config candles raw envs hasset hts hto]
  dsimp only
  rw [execLoop_results]
  simp only [initialExecState, List.nil_append]
  rw [List.getD_eq_getElem?_getD, List.getElem?_map, List.getElem?_range hi]
  rfl

/-- Claim C1 (amended): the live executor fixes the per-slice base size
once as `totalQuantity / sliceCount` (it is not recomputed against the
remaining quantity), so the executed sizes sum to `totalQuantity` exactly
only under additional conditions: every slice succeeds with its fetched
price equal to the (fixed) VWAP reference, the multiplier bounds admit
`1`, and the base size is exact at the instrument's size precision. -/
theorem execute_sum_executed_eq_totalSize (config : VWAPEnhancedConfig)
    (candles : List CandleData) (raw : MarketInfoRaw) (envs : ℕ → OrderEnv)
    (hasset : config.asset ≠ "") (hts : 0 < config.totalSize)
    (hto : config.totalOrders ≠ 0) (hd6 : raw.szDecimals.getD 4 ≤ 6)
    (hw : 0 < (initializeVWAP candles).vwap)
    (hdecw : IsDecimal (initializeVWAP candles).vwap)
    (hmin : config.minMultiplier ≤ 1) (hmax : 1 ≤ config.maxMultiplier)
    (hbd : (config.totalSize / config.totalOrders *
      10 ^ (raw.szDecimals.getD 4)).den = 1)
    (hprice : ∀ i, i < config.totalOrders → (envs i).priceResult =
      some ((initializeVWAP candles).vwap))
    (hplace : ∀ i, i < config.totalOrders → ∃ oid,
      (envs i).placeResult = some ⟨true, oid⟩) :
    ((execute config candles true (some raw) envs).2.results.map
      (·.size)).sum = config.totalSize ∧
    ∀ r ∈ (execute config candles true (some raw) envs).2.results,
      r.success = true := by
  have hN : ((config.totalOrders : ℕ) : ℚ) ≠ 0 := by
    exact_mod_cast hto
  have hb : 0 < config.totalSize / config.totalOrders :=
    div_pos hts (by positivity)
  have hslice : ∀ i, i < config.totalOrders →
      (sliceResultOf config ⟨raw.index.getD 0, raw.szDecimals.getD 4⟩
        (initializeVWAP candles) (config.totalSize / config.totalOrders)
        envs i).size = config.totalSize / config.totalOrders ∧
      (sliceResultOf config ⟨raw.index.getD 0, raw.szDecimals.getD 4⟩
        (initializeVWAP candles) (config.totalSize / config.totalOrders)
        envs i).success = true := by
    intro i hi
    obtain ⟨oid, hpl⟩ := hplace i hi
    obtain ⟨r, hr, hs, hsz, _⟩ := executeOrder_at_vwap config
      ⟨raw.index.getD 0, raw.szDecimals.getD 4⟩ (initializeVWAP candles)
      (config.totalSize / config.totalOrders) (i + 1) (envs i) oid
      (hprice i hi) hpl hb hw hdecw hd6 hmin hmax hbd
    unfold sliceResultOf
    rw [hr]
    exact ⟨hsz, hs⟩
  rw [execute_valid_eq config candles raw envs hasset hts hto]
  dsimp only
  rw [execLoop_results]
  simp only [initialExecState, List.nil_append]
  constructor
  · rw [List.map_map]
    have hmap : List.map ((fun x : TWAPOrderResult => x.size) ∘
        sliceResultOf config ⟨raw.index.getD 0, raw.szDecimals.getD 4⟩
          (initializeVWAP candles) (config.totalSize / config.totalOrders)
          envs) (List.range config.totalOrders) =
        List.map (fun _ => config.totalSize / (config.totalOrders : ℚ))
          (List.range config.totalOrders) :=
      List.map_congr_left (fun i hi => (hslice i (List.mem_range.mp hi)).1)
    rw [hmap, List.map_const', List.length_range, List.sum_replicate,
      nsmul_eq_mul]
    rw [mul_comm, div_mul_cancel₀ _ hN]
  · intro r hr
    obtain ⟨i, hi, rfl⟩ := List.mem_map.mp hr
    exact (hslice i (List.mem_range.mp hi)).2

/-- Witness for `execute_sum_executed_eq_totalSize`: a concrete two-slice
run at the VWAP price executes exactly the configured ten units. -/
theorem execute_sum_executed_eq_totalSize_witness :
    ((execute ⟨10, 2, 1, 1, 1, 2, 1 / 2, 0, "X", Side.buy⟩
        [⟨2000, 2000, 2000, 1, 0⟩] true (some ⟨some 0, some 1⟩)
        (fun _ => ⟨some 2000, some ⟨true, none⟩⟩)).2.results.map
      (·.size)).sum =
      (⟨10, 2, 1, 1, 1, 2, 1 / 2, 0, "X", Side.buy⟩ :
        VWAPEnhancedConfig).totalSize := by
  have hvwap : initializeVWAP [⟨2000, 2000, 2000, 1, 0⟩] =
      ⟨2000, 2000, 1⟩ := by
    norm_num [initializeVWAP, vwapFold, isValidCandle, hlc3]
  exact (execute_sum_executed_eq_totalSize
    ⟨10, 2, 1, 1, 1, 2, 1 / 2, 0, "X", Side.buy⟩
    [⟨2000, 2000, 2000, 1, 0⟩] ⟨some 0, some 1⟩
    (fun _ => ⟨some 2000, some ⟨true, none⟩⟩)
    (by decide) (by norm_num) (by decide) (by norm_num)
    (by rw [hvwap]; norm_num)
    (by rw [hvwap]; unfold IsDecimal; norm_num)
    (by norm_num) (by norm_num) (by norm_num)
    (fun i _ => by rw [hvwap])
    (fun i _ => ⟨none, rfl⟩)).1

/-- Claim C5 (amended): the live executor initializes the VWAP tracker
once from the historical candles and never absorbs a bar inside its loop;
the multiplier recorded for any successful slice is the one the Dynamic
Sizer yields from that same initialization VWAP and the slice's fetched
price, for every slice of the run. -/
theorem execute_sizer_uses_initial_vwap (config : VWAPEnhancedConfig)
    (candles : List CandleData) (raw : MarketInfoRaw) (envs : ℕ → OrderEnv)
    (hasset : config.asset ≠ "") (hts : 0 < config.totalSize)
    (hto : config.totalOrders ≠ 0) (i : ℕ) (hi : i < config.totalOrders)
    (p : ℚ) (hp : (envs i).priceResult = some p)
    (hsucc : ((execute config candles true (some raw) envs).2.results.getD
      i (failedOrderResult 0)).success = true) :
    ((execute config candles true (some raw) envs).2.results.getD i
      (failedOrderResult 0)).vwapMultiplier =
      (calculateVWAPOrderSize (config.totalSize / config.totalOrders) p
        (initializeVWAP candles).vwap config.vwapAlpha config.maxMultiplier
        config.minMultiplier).multiplier := by
  rw [execute_results_getD config candles raw envs hasset hts hto i hi]
    at hsucc ⊢
  unfold sliceResultOf executeOrder at hsucc ⊢
  rw [hp] at hsucc ⊢
  dsimp only at hsucc ⊢
  split_ifs at hsucc ⊢
  all_goals
    first
      | (cases hpl : (envs i).placeResult with
          | none =>
            rw [hpl] at hsucc
            simp [failedOrderResult] at hsucc
          | some res =>
            try rw [hpl]
            rfl)
      | simp [failedOrderResult] at hsucc

/-- Claim C5, counterexample to the claim as stated: in a live two-slice
run, the multiplier the sizer applied at the second slice is computed
from the initialization VWAP (`2000`, giving `1.5` at price `1000`), not
from the VWAP after absorbing the freshest bar (`1250`, which would give
`1.2`): the executor never calls `updateVWAP` during the loop. -/
theorem executor_vwap_not_refreshed :
    ((execute ⟨10, 2, 1, 1, 1, 2, 1 / 2, 0, "X", Side.buy⟩
        [⟨2000, 2000, 2000, 1, 0⟩] true (some ⟨some 0, some 1⟩)
        (fun _ => ⟨some 1000, some ⟨true, none⟩⟩)).2.results.getD 1
      (failedOrderResult 0)).vwapMultiplier = 3 / 2 ∧
    (calculateVWAPOrderSize 5 1000
      (updateVWAP (initializeVWAP [⟨2000, 2000, 2000, 1, 0⟩])
        ⟨500, 500, 500, 1, 100⟩).vwap 1 2 (1 / 2)).multiplier = 6 / 5 ∧
    (3 / 2 : ℚ) ≠ 6 / 5 := by
  have hvwap : initializeVWAP [⟨2000, 2000, 2000, 1, 0⟩] =
      ⟨2000, 2000, 1⟩ := by
    norm_num [initializeVWAP, vwapFold, isValidCandle, hlc3]
  have hord : executeOrder ⟨10, 2, 1, 1, 1, 2, 1 / 2, 0, "X", Side.buy⟩
      ⟨0, 1⟩ ⟨2000, 2000, 1⟩ 5 2 ⟨some 1000, some ⟨true, none⟩⟩ =
      some ⟨2, true, none, 15 / 2, 1001, 3 / 2⟩ := by
    unfold executeOrder
    norm_num [calculateVWAPOrderSize, roundOrderSizeForAsset, jsRound,
      formatHyperliquidPrice, validateHyperliquidPrice, maxDecimalsFor]
  refine ⟨?_, ?_, by norm_num⟩
  · rw [execute_results_getD _ _ _ _ (by decide) (by norm_num) (by decide)
      1 (by norm_num)]
    unfold sliceResultOf
    rw [show (⟨(some 0).getD 0, (some 1).getD 4⟩ : MarketInfo) = ⟨0, 1⟩
      from rfl]
    rw [hvwap]
    rw [show (⟨10, 2, 1, 1, 1, 2, 1 / 2, 0, "X", Side.buy⟩ :
        VWAPEnhancedConfig).totalSize /
        ((⟨10, 2, 1, 1, 1, 2, 1 / 2, 0, "X", Side.buy⟩ :
          VWAPEnhancedConfig).totalOrders : ℚ) = 5 from by norm_num]
    rw [hord]
    rfl
  · rw [hvwap]
    norm_num [updateVWAP, hlc3, calculateVWAPOrderSize]

/-- Witness for `execute_sizer_uses_initial_vwap` at the same concrete
run. -/
theorem execute_sizer_uses_initial_vwap_witness :
    ((execute ⟨10, 2, 1, 1, 1, 2, 1 / 2, 0, "X", Side.buy⟩
        [⟨2000, 2000, 2000, 1, 0⟩] true (some ⟨some 0, some 1⟩)
        (fun _ => ⟨some 1000, some ⟨true, none⟩⟩)).2.results.getD 1
      (failedOrderResult 0)).vwapMultiplier =
      (calculateVWAPOrderSize
        ((⟨10, 2, 1, 1, 1, 2, 1 / 2, 0, "X", Side.buy⟩ :
          VWAPEnhancedConfig).totalSize /
          ((⟨10, 2, 1, 1, 1, 2, 1 / 2, 0, "X", Side.buy⟩ :
            VWAPEnhancedConfig).totalOrders : ℚ)) 1000
        (initializeVWAP [⟨2000, 2000, 2000, 1, 0⟩]).vwap 1 2
        (1 / 2)).multiplier := by
  have hvwap : initializeVWAP [⟨2000, 2000, 2000, 1, 0⟩] =
      ⟨2000, 2000, 1⟩ := by
    norm_num [initializeVWAP, vwapFold, isValidCandle, hlc3]
  have hord : executeOrder ⟨10, 2, 1, 1, 1, 2, 1 / 2, 0, "X", Side.buy⟩
      ⟨0, 1⟩ ⟨2000, 2000, 1⟩ 5 2 ⟨some 1000, some ⟨true, none⟩⟩ =
      some ⟨2, true, none, 15 / 2, 1001, 3 / 2⟩ := by
    unfold executeOrder
    norm_num [calculateVWAPOrderSize, roundOrderSizeForAsset, jsRound,
      formatHyperliquidPrice, validateHyperliquidPrice, maxDecimalsFor]
  have hsucc : ((execute ⟨10, 2, 1, 1, 1, 2, 1 / 2, 0, "X", Side.buy⟩
      [⟨2000, 2000, 2000, 1, 0⟩] true (some ⟨some 0, some 1⟩)
      (fun _ => ⟨some 1000, some ⟨true, none⟩⟩)).2.results.getD 1
      (failedOrderResult 0)).success = true := by
    rw [execute_results_getD _ _ _ _ (by decide) (by norm_num) (by decide)
      1 (by norm_num)]
    unfold sliceResultOf
    rw [show (⟨(some 0).getD 0, (some 1).getD 4⟩ : MarketInfo) = ⟨0, 1⟩
      from rfl]
    rw [hvwap]
    rw [show (⟨10, 2, 1, 1, 1, 2, 1 / 2, 0, "X", Side.buy⟩ :
        VWAPEnhancedConfig).totalSize /
        ((⟨10, 2, 1, 1, 1, 2, 1 / 2, 0, "X", Side.buy⟩ :
          VWAPEnhancedConfig).totalOrders : ℚ) = 5 from by norm_num]
    rw [hord]
    rfl
  exact execute_sizer_uses_initial_vwap
    ⟨10, 2, 1, 1, 1, 2, 1 / 2, 0, "X", Side.buy⟩
    [⟨2000, 2000, 2000, 1, 0⟩] ⟨some 0, some 1⟩
    (fun _ => ⟨some 1000, some ⟨true, none⟩⟩)
    (by decide) (by norm_num) (by decide) 1 (by norm_num) 1000 rfl hsucc
